import Mathlib

/-! # omni_ethercat: kinematics, velocity limiting, odometry and drive state

A shallow embedding of `omni_ethercat/include/omni_ethercat/omnilib.hpp` and
`omni_ethercat/src/omnilib/omnilib.c`, and of `KMS40Driver::start` from
`iai_kms_40_driver/src/iai_kms_40_driver/driver.cpp`.

Conventions of the embedding.

* A C `double` is an element of a linearly ordered field `K`; the theorems are
  stated for `K = ℝ`.  Rounding and overflow of the binary64 format are not
  modelled.  The one place where the source evaluates a quotient whose divisor
  can be zero for ordinary inputs (`omnidrive_drive`) keeps the IEEE-754 result
  of that quotient in the type `Dbl`.
* `sqrt`, `cos` and `sin` of `<math.h>` are arguments of the functions that call
  them; the theorems instantiate them with `Real.sqrt`, `Real.cos`, `Real.sin`.
* A C array of length `n` is a function on `Fin n`; an Eigen fixed-size matrix
  is a Mathlib `Matrix`, and the Eigen product is `Matrix.mulVec`.
* File-level variables that the source assigns are fields of `OmniState`.
* A pointer argument that may be null is an `Option`; what an external call returns
  (the encoder snapshot, the return code of a download, the reply on the socket, the
  return value of `pthread_create`) is an argument of the function that makes the call.
-/

namespace omni_ethercat

/-! ## omnilib.hpp -/

section hpp

variable {K : Type} [Field K]

/-- The class `JacParams` of omnilib.hpp: three public `double` members. -/
structure JacParams (K : Type) where
  lx : K
  ly : K
  drive_constant : K

/-- The function `getJacobian(lx, ly, drive_constant)` of omnilib.hpp. -/
def getJacobian (lx ly drive_constant : K) : Matrix (Fin 3) (Fin 4) K :=
  let a := drive_constant * 4.0
  let b := drive_constant * (lx + ly)
  !![ 1/a,  1/a,  1/a,  1/a;
     -1/a,  1/a,  1/a, -1/a;
     -1/b,  1/b, -1/b,  1/b]

/-- The function `getJacobianInverse(lx, ly, drive_constant)` of omnilib.hpp. -/
def getJacobianInverse (lx ly drive_constant : K) : Matrix (Fin 4) (Fin 3) K :=
  let a := drive_constant
  let b := drive_constant / (lx + ly)
  !![a, -a, -b;
     a,  a,  b;
     a,  a, -b;
     a, -a,  b]

/-- The overload `omniFK(const JacParams&, const OmniEncVel&)`, which forwards to
`omniFK(lx, ly, drive_constant, delta_wheels) = getJacobian(..) * delta_wheels`. -/
def omniFK (params : JacParams K) (delta_wheels : Fin 4 → K) : Fin 3 → K :=
  (getJacobian params.lx params.ly params.drive_constant).mulVec delta_wheels

/-- The overload `omniIK(const JacParams&, const Twist2d&)`, which forwards to
`omniIK(lx, ly, drive_constant, twist_2d) = getJacobianInverse(..) * twist_2d`. -/
def omniIK (params : JacParams K) (twist_2d : Fin 3 → K) : Fin 4 → K :=
  (getJacobianInverse params.lx params.ly params.drive_constant).mulVec twist_2d

/-- The parameters of the fixture `OmnilibTest::SetUp` in test/omni_ethercat/omnilib.cpp. -/
def testParams : JacParams K :=
  { lx := 0.39225, ly := 0.303495, drive_constant := 626594.7934 }

end hpp

/-! ## omnilib.c : Jacobians -/

section jac

variable {K : Type} [Field K]

/-- The macro `alpha` of omnilib.c. -/
def alpha : K := 0.39225 + 0.303495

/-- The local matrix `C_J_fwd` of `jac_forward`. -/
def C_J_fwd : Fin 4 → Fin 3 → K :=
  ![![ 1, -1, alpha],
    ![-1, -1, alpha],
    ![ 1,  1, alpha],
    ![-1,  1, alpha]]

/-- The local matrix `J_inv_C` of `jac_inverse`. -/
def J_inv_C : Fin 3 → Fin 4 → K :=
  ![![ 0.25,       -0.25,        0.25,       -0.25],
    ![-0.25,       -0.25,        0.25,        0.25],
    ![ 0.25/alpha,  0.25/alpha,  0.25/alpha,  0.25/alpha]]

/-- The function `jac_forward(in, out)`: for each `i`, `out[i]` starts at `0` and
accumulates `C_J_fwd[i][j]*in[j]` for `j = 0, 1, 2`. -/
def jac_forward (inp : Fin 3 → K) : Fin 4 → K := fun i =>
  ([0, 1, 2] : List (Fin 3)).foldl (fun acc j => acc + C_J_fwd i j * inp j) 0

/-- The function `jac_inverse(in, out)`: for each `i`, `out[i]` starts at `0` and
accumulates `J_inv_C[i][j]*in[j]` for `j = 0, 1, 2, 3`. -/
def jac_inverse (inp : Fin 4 → K) : Fin 3 → K := fun i =>
  ([0, 1, 2, 3] : List (Fin 4)).foldl (fun acc j => acc + J_inv_C i j * inp j) 0

end jac

/-! ## omnilib.c : IEEE-754 quotients -/

section dbl

variable {K : Type} [LinearOrderedField K]

/-- The value of a C `double` expression whose evaluation may leave the finite
numbers: a finite value, `+inf`, `-inf` or a NaN. -/
inductive Dbl (K : Type) where
  | fin (v : K)
  | pinf
  | ninf
  | nan

/-- The C quotient `n / d` of two finite doubles, with the IEEE-754 results for a
zero divisor.  The divisor is never the negative zero where the embedding uses this
quotient: it is a sum of results of `sqrt` and `fabs`. -/
def Dbl.div (n d : K) : Dbl K :=
  if d = 0 then
    if 0 < n then Dbl.pinf else if n < 0 then Dbl.ninf else Dbl.nan
  else Dbl.fin (n / d)

/-- The C comparison `a < b` on doubles; it is false when an operand is a NaN. -/
def Dbl.lt : Dbl K → Dbl K → Bool
  | Dbl.fin x, Dbl.fin y => decide (x < y)
  | Dbl.fin _, Dbl.pinf => true
  | Dbl.ninf, Dbl.fin _ => true
  | Dbl.ninf, Dbl.pinf => true
  | _, _ => false

/-- The product of a finite double with an infinity of sign `pos`. -/
def Dbl.mulInf (x : K) (pos : Bool) : Dbl K :=
  if x = 0 then Dbl.nan
  else if decide (0 < x) = pos then Dbl.pinf else Dbl.ninf

/-- The C product `a * b` on doubles. -/
def Dbl.mul : Dbl K → Dbl K → Dbl K
  | Dbl.fin x, Dbl.fin y => Dbl.fin (x * y)
  | Dbl.fin x, Dbl.pinf => Dbl.mulInf x true
  | Dbl.fin x, Dbl.ninf => Dbl.mulInf x false
  | Dbl.pinf, Dbl.fin y => Dbl.mulInf y true
  | Dbl.ninf, Dbl.fin y => Dbl.mulInf y false
  | Dbl.pinf, Dbl.pinf => Dbl.pinf
  | Dbl.ninf, Dbl.ninf => Dbl.pinf
  | Dbl.pinf, Dbl.ninf => Dbl.ninf
  | Dbl.ninf, Dbl.pinf => Dbl.ninf
  | _, _ => Dbl.nan

end dbl

/-! ## omnilib.c : file-level state -/

section state

variable {K : Type} [LinearOrderedField K]

/-- Modelled from the spec: the macro `NUM_DRIVES` comes from a header that is not
among the sources.  The spec counts four wheel axes and the torso; omnilib.c
initialises `last_odometry_position[NUM_DRIVES]` with five entries. -/
def NUM_DRIVES : Nat := 5

/-- Modelled from the spec: the macro `TORSO_DRIVE_SEQ` comes from a header that is
not among the sources.  The spec makes the torso the axis after the four wheels;
omnilib.c addresses it as drive 4 (`drive_status(drive4, 4); //torso`). -/
def TORSO_DRIVE_SEQ : Fin 5 := 4

/-- The global `odometry_constant` (ticks/m); omnilib.c never assigns it. -/
def odometry_constant : K := 626594.7934

/-- The global `drive_constant`; omnilib.c never assigns it. -/
def drive_constant : K := 626594.7934

/-- The members of `omniread_t` (realtime.h) that omnilib.c reads.  Integer members
are unbounded integers here; the encoder positions are 32-bit, see `wrap_int32`. -/
structure omniread_t where
  position : Fin 5 → Int
  status : Fin 5 → Int
  slave_state : Fin 5 → Int
  slave_online : Fin 5 → Int
  slave_operational : Fin 5 → Int
  master_link : Int
  master_al_states : Int
  master_slaves_responding : Int
  working_counter : Int
  working_counter_state : Int

/-- The members of `commstatus_t` that `omnidrive_odometry` fills. -/
structure commstatus_t where
  slave_state : Fin 5 → Int
  slave_online : Fin 5 → Int
  slave_operational : Fin 5 → Int
  master_link : Int
  master_al_states : Int
  master_slaves_responding : Int
  working_counter : Int
  working_counter_state : Int

/-- The members of `omniwrite_t` (realtime.h) that `omnidrive_drive` writes after
`memset(&tar, 0, sizeof(tar))`.  A member holds the value of the expression assigned
to it; the conversion to the member's declared type is not modelled, since the
declaration is not among the sources. -/
structure omniwrite_t (K : Type) where
  magic_version : Int
  target_velocity : Fin 5 → Dbl K
  target_position : Fin 5 → K
  send_new_torso_pos : Int
  profile_velocity : Fin 5 → Int
  profile_acceleration : Fin 5 → Int
  profile_deceleration : Fin 5 → Int

/-- The file-level variables of omnilib.c that its functions assign. -/
structure OmniState (K : Type) where
  odometry_correction : K
  odometry_initialized : Int
  last_odometry_position : Fin 5 → Int
  odometry : Fin 3 → K
  status : Fin 5 → Int
  commstatus : commstatus_t
  old_torso_pos : K

/-- The state given by the initialisers of omnilib.c; variables without an
initialiser have static storage and start at zero. -/
def OmniState.init : OmniState K :=
  { odometry_correction := 1.0
    odometry_initialized := 0
    last_odometry_position := ![0, 0, 0, 0, 0]
    odometry := ![0, 0, 0]
    status := fun _ => 0
    commstatus :=
      { slave_state := fun _ => 0
        slave_online := fun _ => 0
        slave_operational := fun _ => 0
        master_link := 0
        master_al_states := 0
        master_slaves_responding := 0
        working_counter := 0
        working_counter_state := 0 }
    old_torso_pos := 0.0 }

/-- The function `omnidrive_set_correction(drift)`. -/
def omnidrive_set_correction (st : OmniState K) (drift : K) : OmniState K :=
  { st with odometry_correction := drift }

end state

/-! ## omnilib.c : omnidrive_drive -/

section drive

variable {K : Type} [LinearOrderedField K]

/-- The local `wheel_limit` of `omnidrive_drive`. -/
def wheel_limit : K := 1.0

/-- The local `cart_limit` of `omnidrive_drive`. -/
def cart_limit : K := 0.5

/-- The local `radius` of `omnidrive_drive`. -/
def radius : K := 0.7

/-- The local `corr_cart` of `omnidrive_drive`:
`cart_limit / (sqrt(x*x + y*y) + radius*fabs(a))`. -/
def corr_cart (sqrt : K → K) (x y a : K) : Dbl K :=
  Dbl.div cart_limit (sqrt (x*x + y*y) + radius * |a|)

/-- The local `corr_wheels` of `omnidrive_drive`:
`wheel_limit / (fabs(x) + fabs(y) + fabs(a))`. -/
def corr_wheels (x y a : K) : Dbl K :=
  Dbl.div wheel_limit (|x| + |y| + |a|)

/-- The local `corr` of `omnidrive_drive`:
`(1 < corr_cart) ? 1 : ((corr_cart < corr_wheels) ? corr_cart : corr_wheels)`. -/
def corr (sqrt : K → K) (x y a : K) : Dbl K :=
  if Dbl.lt (Dbl.fin 1) (corr_cart sqrt x y a) then Dbl.fin 1
  else if Dbl.lt (corr_cart sqrt x y a) (corr_wheels x y a) then corr_cart sqrt x y a
  else corr_wheels x y a

/-- The local `wheel_speeds` of `omnidrive_drive`, filled by
`jac_forward(cartesian_speeds, wheel_speeds)` with `cartesian_speeds = {x, y, a}`. -/
def wheel_speeds (x y a : K) : Fin 4 → K :=
  jac_forward ![x, y, a]

/-- The result of `omnidrive_drive`: the state afterwards, the structure handed to
`omni_write_data`, and the returned `int`. -/
structure drive_result (K : Type) where
  state : OmniState K
  tar : omniwrite_t K
  ret : Int

/-- The function `omnidrive_drive(x, y, a, torso_pos)`.  The argument `magic` stands
for the macro `OMNICOM_MAGIC_VERSION`, whose definition is not among the sources. -/
def omnidrive_drive (sqrt : K → K) (magic : Int) (st : OmniState K)
    (x y a torso_pos : K) : drive_result K :=
  let c := corr sqrt x y a
  let ws := wheel_speeds x y a
  -- for(i = 0; i < 4; i++) tar.target_velocity[i] = wheel_speeds[i] * corr * drive_constant;
  let tv : Fin 5 → Dbl K :=
    ([0, 1, 2, 3] : List (Fin 4)).foldl
      (fun tv i => Function.update tv i.castSucc
        (Dbl.mul (Dbl.mul (Dbl.fin (ws i)) c) (Dbl.fin drive_constant)))
      (fun _ => Dbl.fin 0)
  let changed : Bool := decide (st.old_torso_pos ≠ torso_pos)
  { state := { st with old_torso_pos := torso_pos }
    tar :=
      { magic_version := magic
        target_velocity := tv
        target_position :=
          Function.update (fun _ => 0) TORSO_DRIVE_SEQ
            (if changed then torso_pos else st.old_torso_pos)
        send_new_torso_pos := if changed then 1 else 0
        profile_velocity := Function.update (fun _ => 0) TORSO_DRIVE_SEQ 250000
        profile_acceleration := Function.update (fun _ => 0) TORSO_DRIVE_SEQ 1000000
        profile_deceleration := Function.update (fun _ => 0) TORSO_DRIVE_SEQ 1000000 }
    ret := 0 }

/-- The state before call `n` of a sequence of `omnidrive_drive` calls, call `k`
being `omnidrive_drive(x k, y k, a k, torso_pos k)`. -/
def drive_after (sqrt : K → K) (magic : Int) (st : OmniState K)
    (x y a torso_pos : Nat → K) : Nat → OmniState K
  | 0 => st
  | n + 1 =>
    (omnidrive_drive sqrt magic (drive_after sqrt magic st x y a torso_pos n)
      (x n) (y n) (a n) (torso_pos n)).state

end drive

/-! ## omnilib.c : omnidrive_odometry -/

section odometry

variable {K : Type} [LinearOrderedField K]

/-- The value of a 32-bit two's-complement `int` holding the integer `z`. -/
def wrap_int32 (z : Int) : Int :=
  (z + 2147483648) % 4294967296 - 2147483648

/-- The result of `omnidrive_odometry`: the state afterwards, the four values
written through the pointer arguments, and the returned `int`. -/
structure odometry_result (K : Type) where
  state : OmniState K
  x : K
  y : K
  a : K
  torso_pos : K
  ret : Int

/-- The encoder difference `(int) (cur.position[i] - last_odometry_position[i])`
of wheel `i`, taken against the baseline `last`. -/
def encoder_delta (last : Fin 5 → Int) (cur : omniread_t) (i : Fin 4) : Int :=
  wrap_int32 (cur.position i.castSucc - last i.castSucc)

/-- The function `omnidrive_odometry(x, y, a, torso_pos)`; `cur` is the value
returned by `omni_read_data()`.  The quotient `1.0/(odometry_constant*odometry_correction)`
is the field quotient: the theorems about a moving base assume a nonzero divisor. -/
def omnidrive_odometry (cos sin : K → K) (st : OmniState K) (cur : omniread_t) :
    odometry_result K :=
  -- if(!odometry_initialized) { last_odometry_position[i] = cur.position[i] for all i; ... = 1 }
  let first : Bool := decide (st.odometry_initialized = 0)
  let last0 : Fin 5 → Int := if first then cur.position else st.last_odometry_position
  let initialized : Int := if first then 1 else st.odometry_initialized
  let d_wheel : Fin 4 → K := fun i =>
    (encoder_delta last0 cur i : K) * (1.0 / (odometry_constant * st.odometry_correction))
  -- last_odometry_position[i] = cur.position[i] for i = 0..3
  let last1 : Fin 5 → Int :=
    ([0, 1, 2, 3] : List (Fin 4)).foldl
      (fun l i => Function.update l i.castSucc (cur.position i.castSucc)) last0
  let d := jac_inverse d_wheel
  let ang := st.odometry 2 + d 2 / 2.0
  let o0 := st.odometry 0 + -1 * (d 0 * cos ang - d 1 * sin ang)
  let o1 := st.odometry 1 + -1 * (d 0 * sin ang + d 1 * cos ang)
  let o2 := st.odometry 2 + -1 * d 2
  { state :=
      { st with
        odometry_initialized := initialized
        last_odometry_position := last1
        odometry := ![o0, o1, o2]
        status := cur.status
        commstatus :=
          { slave_state := cur.slave_state
            slave_online := cur.slave_online
            slave_operational := cur.slave_operational
            master_link := cur.master_link
            master_al_states := cur.master_al_states
            master_slaves_responding := cur.master_slaves_responding
            working_counter := cur.working_counter
            working_counter_state := cur.working_counter_state } }
    x := o0
    y := o1
    a := o2
    torso_pos := (cur.position TORSO_DRIVE_SEQ : K) / 10000000.0
    ret := 0 }

/-- The state after the first `n` cycles of `omnidrive_odometry`, cycle `k` reading
the snapshot `enc k`. -/
def odometry_after (cos sin : K → K) (st : OmniState K) (enc : Nat → omniread_t) :
    Nat → OmniState K
  | 0 => st
  | n + 1 => (omnidrive_odometry cos sin (odometry_after cos sin st enc n) (enc n)).state

end odometry

/-! ## omnilib.hpp : calcOdometry -/

section calcodom

variable {K : Type} [Field K]

end calcodom

/-! ## omnilib.c : drive status -/

section status

/-- The local table `statusdisp` of `drive_status`. -/
def statusdisp : Fin 10 → Char :=
  !['0', '1', '2', '3', '4', '5', '6', '7', 'E', 'F']

/-- The local table `statuscode` of `drive_status`. -/
def statuscode : Fin 10 → Int :=
  ![0x00, 0x40, 0x21, 0x33, 0x37, 0xff, 0xff, 0x17, 0x0f, 0x08]

/-- The local table `statusmask` of `drive_status`. -/
def statusmask : Fin 10 → Int :=
  ![0x5f, 0x4f, 0x6f, 0x7f, 0x7f, 0x00, 0x00, 0x7f, 0x4f, 0x4f]

/-- The test `(status[index] & statusmask[i]) == statuscode[i]` of `drive_status`
on the raw status `s`. -/
def status_matches (s : Int) (i : Fin 10) : Bool :=
  decide (Int.land s (statusmask i) = statuscode i)

/-- The function `drive_status(drive, index)`.  The argument `status` is the
file-level array `status`; `drive` is `none` for a null pointer and `some c` for a
pointer to a character holding `c`; the result is the character afterwards.  The
loop runs over all ten entries and assigns at every match. -/
def drive_status (status : Fin 5 → Int) (drive : Option Char) (index : Fin 5) : Option Char :=
  match drive with
  | none => none
  | some c =>
    some (([0, 1, 2, 3, 4, 5, 6, 7, 8, 9] : List (Fin 10)).foldl
      (fun d i => if status_matches (status index) i then statusdisp i else d) c)

/-- The index at which the loop of `drive_status` assigns last on the raw status `s`,
if it assigns at all. -/
def last_match (s : Int) : Option (Fin 10) :=
  ([0, 1, 2, 3, 4, 5, 6, 7, 8, 9] : List (Fin 10)).foldl
    (fun o i => if status_matches s i then some i else o) none

/-- The values behind the six pointer arguments of `omnidrive_status` afterwards. -/
structure status_result where
  drive0 : Option Char
  drive1 : Option Char
  drive2 : Option Char
  drive3 : Option Char
  drive4 : Option Char
  estop : Option Int

/-- The function `omnidrive_status(drive0, ..., drive4, estop)`; a pointer argument
is `none` when null and `some v` when it points to a location holding `v`. -/
def omnidrive_status (status : Fin 5 → Int) (drive0 drive1 drive2 drive3 drive4 : Option Char)
    (estop : Option Int) : status_result :=
  { drive0 := drive_status status drive0 0
    drive1 := drive_status status drive1 1
    drive2 := drive_status status drive2 2
    drive3 := drive_status status drive3 3
    drive4 := drive_status status drive4 4
    estop :=
      match estop with
      | none => none
      | some _ =>
        some (Int.land 0x80
          (Int.land (Int.land (Int.land (Int.land (status 0) (status 1)) (status 2))
            (status 3)) (status 4))) }

/-- The macro `STATUSWORD_HOMING_ATTAINED_BIT` of `homing_reached`. -/
def STATUSWORD_HOMING_ATTAINED_BIT : Int := 12

/-- The function `homing_reached(statusword)`. -/
def homing_reached (statusword : Int) : Int :=
  if Int.land statusword ((1 : Int) <<< STATUSWORD_HOMING_ATTAINED_BIT) ≠ 0 then 1 else 0

end status

/-! ## omnilib.c : service writes -/

section sdo

/-- The macro `INT8`. -/
def INT8 : Int := 0

/-- The macro `UINT8`. -/
def UINT8 : Int := 1

/-- The macro `INT16`. -/
def INT16 : Int := 2

/-- The macro `UINT16`. -/
def UINT16 : Int := 3

/-- The macro `INT32`. -/
def INT32 : Int := 4

/-- The macro `UINT32`. -/
def UINT32 : Int := 5

/-- One call `ecrt_master_sdo_download(master, device, index, subindex, data, data_size, 0)`:
the bytes sent are the first `data_size` bytes of the `int` that holds `value`. -/
structure sdo_download where
  device : Int
  index : Int
  subindex : Int
  value : Int
  data_size : Int
deriving DecidableEq

/-- The bus layer as omnilib.c sees it: the handle returned by `get_master()`
(`none` for `NULL`), the return code of `ecrt_master_sdo_download` for a request,
and the downloads issued so far. -/
structure Bus where
  master : Option Nat
  ecrt_master_sdo_download : sdo_download → Int
  downloads : List sdo_download

/-- The local `data_size` of `writeSDO_lib` after its `switch (type)`: it starts at 0
and the six known types set it to 1, 2 or 4. -/
def sdo_data_size (type : Int) : Int :=
  if type = INT8 ∨ type = UINT8 then 1
  else if type = INT16 ∨ type = UINT16 then 2
  else if type = INT32 ∨ type = UINT32 then 4
  else 0

/-- The function `writeSDO_lib(device, index, subindex, value, type)`: the bus
afterwards and the returned `int`.  The message printed for a null master is not
modelled. -/
def writeSDO_lib (bus : Bus) (device index subindex value type : Int) : Bus × Int :=
  match bus.master with
  | none => (bus, -1)
  | some _ =>
    let data_size : Int := sdo_data_size type
    let req : sdo_download :=
      { device := device, index := index, subindex := subindex, value := value,
        data_size := data_size }
    ({ bus with downloads := bus.downloads ++ [req] }, bus.ecrt_master_sdo_download req)

/-- The function `writeSDO(device, objectNum, value, type)`. -/
def writeSDO (bus : Bus) (device objectNum value type : Int) : Bus × Int :=
  writeSDO_lib bus device objectNum 0 value type

/-- The arguments of one call of `writeSDO`. -/
structure sdo_write where
  device : Int
  objectNum : Int
  value : Int
  type : Int
deriving DecidableEq

/-- The calls of `writeSDO` in the body of `omnidrive_poweron`, in source order. -/
def omnidrive_poweron_writes : List sdo_write :=
  [ { device := 0, objectNum := 0x6040, value := 0x06, type := UINT16 },
    { device := 1, objectNum := 0x6040, value := 0x06, type := UINT16 },
    { device := 2, objectNum := 0x6040, value := 0x06, type := UINT16 },
    { device := 3, objectNum := 0x6040, value := 0x06, type := UINT16 },
    { device := 4, objectNum := 0x6040, value := 0x06, type := UINT16 },
    { device := 0, objectNum := 0x6040, value := 0x07, type := UINT16 },
    { device := 1, objectNum := 0x6040, value := 0x07, type := UINT16 },
    { device := 2, objectNum := 0x6040, value := 0x07, type := UINT16 },
    { device := 3, objectNum := 0x6040, value := 0x07, type := UINT16 },
    { device := 4, objectNum := 0x6040, value := 0x07, type := UINT16 },
    { device := 0, objectNum := 0x6040, value := 0x0f, type := UINT16 },
    { device := 1, objectNum := 0x6040, value := 0x0f, type := UINT16 },
    { device := 2, objectNum := 0x6040, value := 0x0f, type := UINT16 },
    { device := 3, objectNum := 0x6040, value := 0x0f, type := UINT16 },
    { device := 4, objectNum := 0x6040, value := 0x0f, type := UINT16 } ]

/-- The function `omnidrive_poweron()`: it performs its calls of `writeSDO` in order
and ignores their return values. -/
def omnidrive_poweron (bus : Bus) : Bus :=
  omnidrive_poweron_writes.foldl
    (fun b w => (writeSDO b w.device w.objectNum w.value w.type).1) bus

end sdo

/-! ## Fixtures for the odometry theorems -/

section fixtures

variable {K : Type} [LinearOrderedField K]

/-- A snapshot whose wheel encoders read `(m, -m, m, -m)`, the pattern of
`jac_forward` for a pure forward twist, with every other member zero. -/
def forward_snapshot (m : Int) : omniread_t :=
  { position := ![m, -m, m, -m, 0]
    status := fun _ => 0
    slave_state := fun _ => 0
    slave_online := fun _ => 0
    slave_operational := fun _ => 0
    master_link := 0
    master_al_states := 0
    master_slaves_responding := 0
    working_counter := 0
    working_counter_state := 0 }

/-- A snapshot whose wheel encoders all read `m`, the pattern of `jac_forward` for
a pure rotation, with every other member zero. -/
def rotation_snapshot (m : Int) : omniread_t :=
  { position := ![m, m, m, m, 0]
    status := fun _ => 0
    slave_state := fun _ => 0
    slave_online := fun _ => 0
    slave_operational := fun _ => 0
    master_link := 0
    master_al_states := 0
    master_slaves_responding := 0
    working_counter := 0
    working_counter_state := 0 }

/-- A bus whose master handle is available, whose downloads all return 0 and on
which nothing has been downloaded yet. -/
def idle_bus : Bus :=
  { master := some 0
    ecrt_master_sdo_download := fun _ => 0
    downloads := [] }

/-- The initial state after its baseline has been taken at encoder positions zero:
`odometry_initialized` is `1` and the pose is the origin. -/
def initialized_origin : OmniState K :=
  { (OmniState.init : OmniState K) with odometry_initialized := 1 }

end fixtures

end omni_ethercat

/-! ## iai_kms_40_driver : driver.cpp -/

namespace iai_kms_40_driver

/-- The members of `KMS40Driver` that `start` touches, and what it leaves outside
the object: `exit_requested_`; whether `pthread_create` has started the reader
thread `thread_`; the messages sent on `socket_conn_`; the lines written to
`std::cout` and to `stderr`. -/
structure KMS40Driver where
  exit_requested_ : Bool
  thread_created : Bool
  sent : List String
  cout : List String
  cerr : List String

/-- The constructor `KMS40Driver::KMS40Driver()`. -/
def KMS40Driver.new : KMS40Driver :=
  { exit_requested_ := false
    thread_created := false
    sent := []
    cout := []
    cerr := [] }

/-- The method `KMS40Driver::requestStreamStart()`; `reply` is the chunk that
`socket_conn_.readChunk()` returns after the request has been sent. -/
def KMS40Driver.requestStreamStart (d : KMS40Driver) (reply : String) : KMS40Driver × Bool :=
  ({ d with
      cout := d.cout ++ ["Request kms40 to start data streaming\n."]
      sent := d.sent ++ ["L1()\n"] },
   decide (reply = "L1\n"))

/-- The method `KMS40Driver::start()`; `reply` is the chunk read by
`requestStreamStart` and `pthread_create_ret` the value that `pthread_create`
returns.  The initialisation of the mutex and of the thread attributes has no
effect on the members modelled here. -/
def KMS40Driver.start (d : KMS40Driver) (reply : String) (pthread_create_ret : Int) :
    KMS40Driver × Bool :=
  let r := d.requestStreamStart reply
  if !r.2 then
    ({ r.1 with cout := r.1.cout ++ ["Error during request to start streaming.\n"] }, false)
  else
    let d1 : KMS40Driver := { r.1 with cout := r.1.cout ++ ["Starting thread\n"] }
    if pthread_create_ret ≠ 0 then
      ({ d1 with cerr := d1.cerr ++ ["# ERROR: could not create realtime thread\n"] }, false)
    else
      ({ d1 with thread_created := true, exit_requested_ := false }, false)

end iai_kms_40_driver

namespace omni_ethercat

/-! ## Kinematics: theorems -/

/-- Components of `omniFK`. -/
theorem omniFK_apply {K : Type} [Field K] (p : JacParams K) (w : Fin 4 → K) :
    omniFK p w = ![(w 0 + w 1 + w 2 + w 3) / (p.drive_constant * 4),
                   (-w 0 + w 1 + w 2 - w 3) / (p.drive_constant * 4),
                   (-w 0 + w 1 - w 2 + w 3) / (p.drive_constant * (p.lx + p.ly))] := by
  funext i
  have h4 : (4.0 : K) = 4 := by norm_num
  fin_cases i <;>
    simp [omniFK, getJacobian, Matrix.mulVec, Matrix.dotProduct, Fin.sum_univ_four, h4,
      div_eq_mul_inv, -mul_inv_rev] <;>
    ring

/-- Components of `omniIK`. -/
theorem omniIK_apply {K : Type} [Field K] (p : JacParams K) (t : Fin 3 → K) :
    omniIK p t = ![p.drive_constant * t 0 - p.drive_constant * t 1
                     - p.drive_constant / (p.lx + p.ly) * t 2,
                   p.drive_constant * t 0 + p.drive_constant * t 1
                     + p.drive_constant / (p.lx + p.ly) * t 2,
                   p.drive_constant * t 0 + p.drive_constant * t 1
                     - p.drive_constant / (p.lx + p.ly) * t 2,
                   p.drive_constant * t 0 - p.drive_constant * t 1
                     + p.drive_constant / (p.lx + p.ly) * t 2] := by
  funext i
  fin_cases i <;>
    simp [omniIK, getJacobianInverse, Matrix.mulVec, Matrix.dotProduct, Fin.sum_univ_three] <;>
    ring

/-- The composite `omniFK ∘ omniIK` keeps `vx` and `vy` and multiplies `omega`
by `4 / (lx + ly)^2`. -/
theorem omniFK_omniIK_apply {K : Type} [Field K] [CharZero K] (p : JacParams K)
    (hl : p.lx + p.ly ≠ 0) (hd : p.drive_constant ≠ 0) (t : Fin 3 → K) :
    omniFK p (omniIK p t) = ![t 0, t 1, 4 * t 2 / (p.lx + p.ly) ^ 2] := by
  rw [omniIK_apply, omniFK_apply]
  funext i
  fin_cases i <;>
    simp only [Fin.mk_one, Fin.zero_eta, Fin.reduceFinMk, Matrix.cons_val_three,
      Matrix.cons_val_zero, Matrix.cons_val_one, Matrix.head_cons, Matrix.cons_val_two,
      Matrix.tail_cons] <;>
    field_simp <;> ring

/-- C1: at the parameters of the test fixture (lx = 0.39225, ly = 0.303495,
drive_constant = 626594.7934) and the twist (0, 0, 1), `omniFK (omniIK t)` is
`(0, 0, 4 / 0.695745^2)`, which is not the twist `(0, 0, 1)`: the rotational
component is not recovered. -/
theorem omniFK_omniIK_testParams_rotation :
    omniFK (testParams : JacParams ℝ) (omniIK testParams ![0, 0, 1])
        = ![0, 0, 4 / 0.695745 ^ 2]
      ∧ omniFK (testParams : JacParams ℝ) (omniIK testParams ![0, 0, 1]) ≠ ![0, 0, 1] := by
  have hl : (testParams : JacParams ℝ).lx + (testParams : JacParams ℝ).ly ≠ 0 := by
    norm_num [testParams]
  have hd : (testParams : JacParams ℝ).drive_constant ≠ 0 := by
    norm_num [testParams]
  have h := omniFK_omniIK_apply (testParams : JacParams ℝ) hl hd ![0, 0, 1]
  have e : omniFK (testParams : JacParams ℝ) (omniIK testParams ![0, 0, 1])
      = ![0, 0, 4 / 0.695745 ^ 2] := by
    rw [h]
    funext i
    fin_cases i
    all_goals
      simp only [testParams, Fin.mk_one, Fin.zero_eta, Fin.reduceFinMk,
        Matrix.cons_val_zero, Matrix.cons_val_one, Matrix.head_cons, Matrix.cons_val_two,
        Matrix.tail_cons]
    norm_num
  refine ⟨e, ?_⟩
  rw [e]
  intro hcon
  have h2 := congrFun hcon 2
  simp at h2
  norm_num at h2

/-- C2 (counterexample): with the valid parameters lx = ly = drive_constant = 1 the
wheel vector (1, 0, 0, 0) is not recovered: `omniIK (omniFK w)` has first
component 3/4. -/
theorem omniIK_omniFK_counterexample :
    (0 : ℝ) < (JacParams.mk 1 1 1 : JacParams ℝ).lx
      ∧ (0 : ℝ) < (JacParams.mk 1 1 1 : JacParams ℝ).ly
      ∧ (0 : ℝ) < (JacParams.mk 1 1 1 : JacParams ℝ).drive_constant
      ∧ omniIK (JacParams.mk 1 1 1 : JacParams ℝ) (omniFK (JacParams.mk 1 1 1) ![1, 0, 0, 0]) 0
          = 3 / 4
      ∧ omniIK (JacParams.mk 1 1 1 : JacParams ℝ) (omniFK (JacParams.mk 1 1 1) ![1, 0, 0, 0])
          ≠ ![1, 0, 0, 0] := by
  have e : omniIK (JacParams.mk 1 1 1 : JacParams ℝ)
      (omniFK (JacParams.mk 1 1 1) ![1, 0, 0, 0]) 0 = 3 / 4 := by
    rw [omniFK_apply, omniIK_apply]
    simp
    norm_num
  refine ⟨by norm_num, by norm_num, by norm_num, e, ?_⟩
  intro hcon
  have h0 := congrFun hcon 0
  rw [e] at h0
  simp at h0
  norm_num at h0

/-- C2 (amended): for valid parameters (lx > 0, ly > 0, drive_constant > 0) and
every wheel vector `w` that is consistent (`w0 + w1 = w2 + w3`, the image of
`omniIK`) and free of rotation (`-w0 + w1 - w2 + w3 = 0`),
`omniIK (omniFK w) = w`. -/
theorem omniIK_omniFK_of_consistent (p : JacParams ℝ) (hlx : 0 < p.lx) (hly : 0 < p.ly)
    (hd : 0 < p.drive_constant) (w : Fin 4 → ℝ)
    (hc : w 0 + w 1 = w 2 + w 3) (hr : -w 0 + w 1 - w 2 + w 3 = 0) :
    omniIK p (omniFK p w) = w := by
  have hl : p.lx + p.ly ≠ 0 := by positivity
  have hd0 : p.drive_constant ≠ 0 := ne_of_gt hd
  have e2 : w 2 = w 1 := by linarith
  have e3 : w 3 = w 0 := by linarith
  rw [omniFK_apply, omniIK_apply]
  funext i
  fin_cases i <;>
    simp only [e2, e3, Fin.mk_one, Fin.zero_eta, Fin.reduceFinMk, Matrix.cons_val_three,
      Matrix.cons_val_zero, Matrix.cons_val_one, Matrix.head_cons, Matrix.cons_val_two,
      Matrix.tail_cons] <;>
    field_simp <;> ring

/-- Witness of `omniIK_omniFK_of_consistent`: the test parameters and the wheel
vector (1, 2, 2, 1). -/
theorem omniIK_omniFK_of_consistent_witness :
    omniIK (testParams : JacParams ℝ) (omniFK testParams ![1, 2, 2, 1]) = ![1, 2, 2, 1] :=
  omniIK_omniFK_of_consistent testParams (by norm_num [testParams]) (by norm_num [testParams])
    (by norm_num [testParams]) ![1, 2, 2, 1] (by simp; norm_num) (by simp)

/-- The divisor of `corr_cart` is positive for a twist that is not exactly zero. -/
theorem cart_divisor_pos (x y a : ℝ) (h : (x, y, a) ≠ (0, 0, 0)) :
    0 < Real.sqrt (x*x + y*y) + radius * |a| := by
  have hs : 0 ≤ Real.sqrt (x*x + y*y) := Real.sqrt_nonneg _
  have ha : 0 ≤ |a| := abs_nonneg a
  have hr : (radius : ℝ) = 0.7 := rfl
  by_contra hcon
  have hle : Real.sqrt (x*x + y*y) + radius * |a| ≤ 0 := not_lt.mp hcon
  have h1 : Real.sqrt (x*x + y*y) = 0 := by rw [hr] at hle; nlinarith
  have h2 : |a| = 0 := by rw [hr] at hle; nlinarith
  have h3 : x*x + y*y ≤ 0 := (Real.sqrt_eq_zero'.mp h1)
  have hx : x = 0 := by nlinarith [mul_self_nonneg x, mul_self_nonneg y]
  have hy : y = 0 := by nlinarith [mul_self_nonneg x, mul_self_nonneg y]
  have ha0 : a = 0 := abs_eq_zero.mp h2
  exact h (by rw [hx, hy, ha0])

/-- The divisor of `corr_wheels` is positive for a twist that is not exactly zero. -/
theorem wheel_divisor_pos (x y a : ℝ) (h : (x, y, a) ≠ (0, 0, 0)) :
    0 < |x| + |y| + |a| := by
  have hx : 0 ≤ |x| := abs_nonneg x
  have hy : 0 ≤ |y| := abs_nonneg y
  have ha : 0 ≤ |a| := abs_nonneg a
  by_contra hcon
  have hle : |x| + |y| + |a| ≤ 0 := not_lt.mp hcon
  have h1 : x = 0 := abs_eq_zero.mp (by linarith)
  have h2 : y = 0 := abs_eq_zero.mp (by linarith)
  have h3 : a = 0 := abs_eq_zero.mp (by linarith)
  exact h (by rw [h1, h2, h3])

/-- Each of `|x|` and `|y|` is at most `sqrt (x*x + y*y)`. -/
theorem abs_add_abs_le_two_sqrt (x y : ℝ) : |x| + |y| ≤ 2 * Real.sqrt (x*x + y*y) := by
  have hx : |x| ≤ Real.sqrt (x*x + y*y) :=
    Real.abs_le_sqrt (by nlinarith [mul_self_nonneg y])
  have hy : |y| ≤ Real.sqrt (x*x + y*y) :=
    Real.abs_le_sqrt (by nlinarith [mul_self_nonneg x])
  linarith

/-- The divisor of `corr_wheels` is at most twice the divisor of `corr_cart`. -/
theorem wheel_divisor_le (x y a : ℝ) :
    |x| + |y| + |a| ≤ 2 * (Real.sqrt (x*x + y*y) + radius * |a|) := by
  have h := abs_add_abs_le_two_sqrt x y
  have ha : 0 ≤ |a| := abs_nonneg a
  have hr : (radius : ℝ) = 0.7 := rfl
  rw [hr]
  nlinarith

/-- For a twist that is not exactly zero, `corr_cart` is the finite quotient. -/
theorem corr_cart_eq (x y a : ℝ) (h : (x, y, a) ≠ (0, 0, 0)) :
    corr_cart Real.sqrt x y a
      = Dbl.fin (cart_limit / (Real.sqrt (x*x + y*y) + radius * |a|)) := by
  have hD := cart_divisor_pos x y a h
  simp [corr_cart, Dbl.div, ne_of_gt hD]

/-- For a twist that is not exactly zero, `corr_wheels` is the finite quotient. -/
theorem corr_wheels_eq (x y a : ℝ) (h : (x, y, a) ≠ (0, 0, 0)) :
    corr_wheels x y a = Dbl.fin (wheel_limit / (|x| + |y| + |a|)) := by
  have hW := wheel_divisor_pos x y a h
  simp [corr_wheels, Dbl.div, ne_of_gt hW]

/-- For a twist that is not exactly zero, the cartesian quotient is at most the
wheel quotient. -/
theorem cart_quotient_le_wheel_quotient (x y a : ℝ) (h : (x, y, a) ≠ (0, 0, 0)) :
    (cart_limit : ℝ) / (Real.sqrt (x*x + y*y) + radius * |a|)
      ≤ wheel_limit / (|x| + |y| + |a|) := by
  have hD := cart_divisor_pos x y a h
  have hW := wheel_divisor_pos x y a h
  have hle := wheel_divisor_le x y a
  have hc : (cart_limit : ℝ) = 0.5 := rfl
  have hw : (wheel_limit : ℝ) = 1.0 := rfl
  rw [hc, hw, div_le_div_iff₀ hD hW]
  norm_num
  linarith

/-- For a twist that is not exactly zero, `corr` is the finite value
`min 1 (cart_limit / (sqrt (x*x + y*y) + radius*|a|))`. -/
theorem corr_eq (x y a : ℝ) (h : (x, y, a) ≠ (0, 0, 0)) :
    corr Real.sqrt x y a
      = Dbl.fin (min 1 ((cart_limit : ℝ) / (Real.sqrt (x*x + y*y) + radius * |a|))) := by
  have hle := cart_quotient_le_wheel_quotient x y a h
  unfold corr
  rw [corr_cart_eq x y a h, corr_wheels_eq x y a h]
  simp only [Dbl.lt]
  by_cases h1 : (1 : ℝ) < cart_limit / (Real.sqrt (x*x + y*y) + radius * |a|)
  · simp [h1, min_eq_left (le_of_lt h1)]
  · have h1le := not_lt.mp h1
    simp only [h1, decide_False, Bool.false_eq_true, if_false, min_eq_right h1le]
    by_cases h2 : (cart_limit : ℝ) / (Real.sqrt (x*x + y*y) + radius * |a|)
        < wheel_limit / (|x| + |y| + |a|)
    · simp [h2]
    · simp only [h2, decide_False, Bool.false_eq_true, if_false]
      exact congrArg Dbl.fin (le_antisymm (not_lt.mp h2) hle)

/-- Components of `wheel_speeds`. -/
theorem wheel_speeds_apply (x y a : ℝ) :
    wheel_speeds x y a = ![ x - y + alpha * a, -x - y + alpha * a,
                            x + y + alpha * a, -x + y + alpha * a] := by
  funext i
  fin_cases i <;>
    simp only [wheel_speeds, jac_forward, C_J_fwd, List.foldl_cons, List.foldl_nil,
      Fin.mk_one, Fin.zero_eta, Fin.reduceFinMk, Matrix.cons_val_three,
      Matrix.cons_val_zero, Matrix.cons_val_one, Matrix.head_cons, Matrix.cons_val_two,
      Matrix.tail_cons] <;>
    ring

/-- The target velocity that `omnidrive_drive` writes for wheel `i` when `corr` is
the finite value `c`. -/
theorem target_velocity_eq (magic : Int) (st : OmniState ℝ) (x y a torso_pos c : ℝ)
    (hc : corr Real.sqrt x y a = Dbl.fin c) (i : Fin 4) :
    (omnidrive_drive Real.sqrt magic st x y a torso_pos).tar.target_velocity i.castSucc
      = Dbl.fin (wheel_speeds x y a i * c * drive_constant) := by
  have e0 : Fin.castSucc (0 : Fin 4) = (0 : Fin 5) := rfl
  have e1 : Fin.castSucc (1 : Fin 4) = (1 : Fin 5) := rfl
  have e2 : Fin.castSucc (2 : Fin 4) = (2 : Fin 5) := rfl
  have e3 : Fin.castSucc (3 : Fin 4) = (3 : Fin 5) := rfl
  simp only [omnidrive_drive, hc, Dbl.mul, List.foldl_cons, List.foldl_nil]
  fin_cases i <;> simp [Function.update, e0, e1, e2, e3]

/-- C5: for every twist that is not exactly zero, `corr` equals
`min(1, corr_cart, corr_wheels)` with `corr_cart = 0.5 / (sqrt (x^2 + y^2) + 0.7*|a|)`
and `corr_wheels = 1.0 / (|x| + |y| + |a|)`. -/
theorem omnidrive_drive_corr_eq_min (x y a : ℝ) (h : (x, y, a) ≠ (0, 0, 0)) :
    corr Real.sqrt x y a
      = Dbl.fin (min 1 (min (0.5 / (Real.sqrt (x^2 + y^2) + 0.7 * |a|))
                            (1.0 / (|x| + |y| + |a|)))) := by
  have hq := cart_quotient_le_wheel_quotient x y a h
  have hr : (radius : ℝ) = 0.7 := rfl
  have hcl : (cart_limit : ℝ) = 0.5 := rfl
  have hwl : (wheel_limit : ℝ) = 1.0 := rfl
  have hsq : x^2 + y^2 = x*x + y*y := by ring
  rw [corr_eq x y a h, hsq, ← hr, ← hcl, ← hwl, min_eq_left hq]

/-- Witness of `omnidrive_drive_corr_eq_min`: the twist (1, 0, 0). -/
theorem omnidrive_drive_corr_eq_min_witness :
    corr Real.sqrt 1 0 0
      = Dbl.fin (min 1 (min (0.5 / (Real.sqrt (1^2 + 0^2) + 0.7 * |0|))
                            (1.0 / (|1| + |0| + |0|)))) :=
  omnidrive_drive_corr_eq_min 1 0 0 (by simp)

/-- C8 (counterexample): for the exactly-zero twist both quotients of
`omnidrive_drive` are evaluated with the divisor zero: the divisors are `0` and
the quotients are `+inf`, not finite values. -/
theorem omnidrive_drive_zero_twist_divides_by_zero :
    Real.sqrt (0*0 + 0*0) + radius * |(0 : ℝ)| = 0
      ∧ corr_cart Real.sqrt 0 0 0 = Dbl.pinf
      ∧ |(0 : ℝ)| + |0| + |0| = 0
      ∧ corr_wheels (0 : ℝ) 0 0 = Dbl.pinf
      ∧ ¬ ((∃ c : ℝ, corr_cart Real.sqrt 0 0 0 = Dbl.fin c)
            ∧ (∃ c : ℝ, corr_wheels (0 : ℝ) 0 0 = Dbl.fin c)) := by
  have h1 : corr_cart Real.sqrt 0 0 0 = Dbl.pinf := by
    norm_num [corr_cart, Dbl.div, cart_limit]
  have h2 : corr_wheels (0 : ℝ) 0 0 = Dbl.pinf := by
    norm_num [corr_wheels, Dbl.div, wheel_limit]
  refine ⟨by simp, h1, by simp, h2, ?_⟩
  rintro ⟨⟨c, hc⟩, _⟩
  rw [h1] at hc
  cases hc

/-- C8 (amended): for the exactly-zero twist, `omnidrive_drive` evaluates both
quotients with the divisor zero, each giving `+inf`; the comparison `1 < corr_cart`
then selects the scale factor `corr = 1`, and all four target velocities are `0`. -/
theorem omnidrive_drive_zero_twist (magic : Int) (st : OmniState ℝ) (torso_pos : ℝ) :
    corr_cart Real.sqrt 0 0 0 = Dbl.pinf
      ∧ corr_wheels (0 : ℝ) 0 0 = Dbl.pinf
      ∧ corr Real.sqrt 0 0 0 = Dbl.fin 1
      ∧ ∀ i : Fin 4,
          (omnidrive_drive Real.sqrt magic st 0 0 0 torso_pos).tar.target_velocity i.castSucc
            = Dbl.fin 0 := by
  have h1 : corr_cart Real.sqrt 0 0 0 = Dbl.pinf := by
    norm_num [corr_cart, Dbl.div, cart_limit]
  have h2 : corr_wheels (0 : ℝ) 0 0 = Dbl.pinf := by
    norm_num [corr_wheels, Dbl.div, wheel_limit]
  have h3 : corr Real.sqrt 0 0 0 = Dbl.fin 1 := by
    simp [corr, h1, Dbl.lt]
  refine ⟨h1, h2, h3, ?_⟩
  intro i
  rw [target_velocity_eq magic st 0 0 0 torso_pos 1 h3 i, wheel_speeds_apply]
  fin_cases i <;> simp

/-! ## Odometry: theorems -/

/-- The loop that records the wheel positions leaves a baseline that already
agrees with the snapshot unchanged. -/
theorem record_positions_self (pos : Fin 5 → Int) :
    ([0, 1, 2, 3] : List (Fin 4)).foldl
      (fun l i => Function.update l i.castSucc (pos i.castSucc)) pos = pos := by
  simp only [List.foldl_cons, List.foldl_nil, Function.update_eq_self]

/-- The twist increment `jac_inverse` computes from wheel increments
`(q, -q, q, -q)` is `(q, 0, 0)`. -/
theorem jac_inverse_forward_pattern (dw : Fin 4 → ℝ) (q : ℝ)
    (h0 : dw 0 = q) (h1 : dw 1 = -q) (h2 : dw 2 = q) (h3 : dw 3 = -q) :
    jac_inverse dw = ![q, 0, 0] := by
  have ha : (alpha : ℝ) ≠ 0 := by norm_num [alpha]
  funext i
  fin_cases i
  all_goals
    simp only [jac_inverse, J_inv_C, List.foldl_cons, List.foldl_nil, h0, h1, h2, h3,
      Fin.mk_one, Fin.zero_eta, Fin.reduceFinMk, Matrix.cons_val_three,
      Matrix.cons_val_zero, Matrix.cons_val_one, Matrix.head_cons, Matrix.cons_val_two,
      Matrix.tail_cons]
  all_goals field_simp
  all_goals ring

/-- One cycle of `omnidrive_odometry` on an initialised state with heading zero
whose encoder differences are `lam * jac_forward (vx, 0, 0)`. -/
theorem odometry_forward_step (st : OmniState ℝ) (cur : omniread_t)
    (hinit : st.odometry_initialized ≠ 0) (hth : st.odometry 2 = 0) (vx lam : ℝ)
    (hd : ∀ i : Fin 4, ((encoder_delta st.last_odometry_position cur i : Int) : ℝ)
            = lam * jac_forward ![vx, 0, 0] i) :
    (omnidrive_odometry Real.cos Real.sin st cur).state.odometry 0
        = st.odometry 0 - lam * vx / (odometry_constant * st.odometry_correction)
      ∧ (omnidrive_odometry Real.cos Real.sin st cur).state.odometry 1 = st.odometry 1
      ∧ (omnidrive_odometry Real.cos Real.sin st cur).state.odometry 2 = 0
      ∧ (omnidrive_odometry Real.cos Real.sin st cur).state.odometry_initialized ≠ 0
      ∧ (omnidrive_odometry Real.cos Real.sin st cur).state.odometry_correction
          = st.odometry_correction := by
  have hw := wheel_speeds_apply vx 0 0
  simp only [wheel_speeds] at hw
  have hj : jac_inverse (fun i : Fin 4 =>
      ((encoder_delta st.last_odometry_position cur i : Int) : ℝ)
        * (1.0 / (odometry_constant * st.odometry_correction)))
      = ![lam * vx / (odometry_constant * st.odometry_correction), 0, 0] := by
    apply jac_inverse_forward_pattern
    · simp only [hd, hw]; simp; ring
    · simp only [hd, hw]; simp; ring
    · simp only [hd, hw]; simp; ring
    · simp only [hd, hw]; simp; ring
  simp only [omnidrive_odometry, hinit, decide_False, Bool.false_eq_true, if_false, hj, hth]
  refine ⟨?_, ?_, ?_, hinit, trivial⟩
  · simp; ring
  · simp
  · simp

/-- Over cycles whose encoder differences are positive multiples of
`jac_forward (vx, 0, 0)` with `vx > 0`, the state stays initialised, keeps its
correction factor, its `y` and its heading zero. -/
theorem odometry_forward_invariant (st : OmniState ℝ) (enc : Nat → omniread_t) (N : Nat)
    (hinit : st.odometry_initialized ≠ 0) (hth : st.odometry 2 = 0)
    (hfw : ∀ n, n < N → ∃ vx lam : ℝ, 0 < vx ∧ 0 < lam ∧ ∀ i : Fin 4,
      ((encoder_delta (odometry_after Real.cos Real.sin st enc n).last_odometry_position
          (enc n) i : Int) : ℝ) = lam * jac_forward ![vx, 0, 0] i) :
    ∀ n, n ≤ N →
      (odometry_after Real.cos Real.sin st enc n).odometry_initialized ≠ 0
      ∧ (odometry_after Real.cos Real.sin st enc n).odometry_correction
          = st.odometry_correction
      ∧ (odometry_after Real.cos Real.sin st enc n).odometry 1 = st.odometry 1
      ∧ (odometry_after Real.cos Real.sin st enc n).odometry 2 = 0 := by
  intro n
  induction n with
  | zero => intro _; exact ⟨hinit, rfl, rfl, hth⟩
  | succ k ih =>
    intro hk
    obtain ⟨hi, hcorr, hy, ht⟩ := ih (Nat.le_of_succ_le hk)
    obtain ⟨vx, lam, _, _, hd⟩ := hfw k hk
    obtain ⟨_, s1, s2, s3, s4⟩ :=
      odometry_forward_step (odometry_after Real.cos Real.sin st enc k) (enc k) hi ht vx lam hd
    exact ⟨s3, s4.trans hcorr, s1.trans hy, s2⟩

/-- C9 (counterexample): from the initialised state at the origin (heading 0), one
cycle whose encoder differences are `1 * jac_forward (1, 0, 0) = (1, -1, 1, -1)`
moves the odometry `x` from `0` to `-1 / 626594.7934`: `x` decreases. -/
theorem omnidrive_odometry_forward_counterexample :
    (initialized_origin : OmniState ℝ).odometry_initialized ≠ 0
      ∧ (initialized_origin : OmniState ℝ).odometry 2 = 0
      ∧ (∀ i : Fin 4,
          ((encoder_delta (initialized_origin : OmniState ℝ).last_odometry_position
              (forward_snapshot 1) i : Int) : ℝ) = 1 * jac_forward ![(1 : ℝ), 0, 0] i)
      ∧ (omnidrive_odometry Real.cos Real.sin initialized_origin (forward_snapshot 1)).x
          = -1 / 626594.7934
      ∧ ¬ ((initialized_origin : OmniState ℝ).odometry 0
            < (omnidrive_odometry Real.cos Real.sin initialized_origin (forward_snapshot 1)).x) := by
  have hi : (initialized_origin : OmniState ℝ).odometry_initialized ≠ 0 := by
    simp [initialized_origin]
  have ht : (initialized_origin : OmniState ℝ).odometry 2 = 0 := by
    simp [initialized_origin, OmniState.init]
  have hw := wheel_speeds_apply 1 0 0
  simp only [wheel_speeds] at hw
  have hd : ∀ i : Fin 4,
      ((encoder_delta (initialized_origin : OmniState ℝ).last_odometry_position
          (forward_snapshot 1) i : Int) : ℝ) = 1 * jac_forward ![(1 : ℝ), 0, 0] i := by
    have e0 : Fin.castSucc (0 : Fin 4) = (0 : Fin 5) := rfl
    have e1 : Fin.castSucc (1 : Fin 4) = (1 : Fin 5) := rfl
    have e2 : Fin.castSucc (2 : Fin 4) = (2 : Fin 5) := rfl
    have e3 : Fin.castSucc (3 : Fin 4) = (3 : Fin 5) := rfl
    intro i
    rw [hw]
    fin_cases i <;>
      simp [encoder_delta, initialized_origin, OmniState.init, forward_snapshot, wrap_int32,
        e0, e1, e2, e3]
  have hstep := (odometry_forward_step initialized_origin (forward_snapshot 1) hi ht 1 1 hd).1
  have hx : (omnidrive_odometry Real.cos Real.sin initialized_origin (forward_snapshot 1)).x
      = -1 / 626594.7934 := by
    have e : (omnidrive_odometry Real.cos Real.sin initialized_origin (forward_snapshot 1)).x
        = (omnidrive_odometry Real.cos Real.sin initialized_origin
            (forward_snapshot 1)).state.odometry 0 := rfl
    rw [e, hstep]
    simp [initialized_origin, OmniState.init, odometry_constant]
    norm_num
  refine ⟨hi, ht, hd, hx, ?_⟩
  rw [hx]
  simp [initialized_origin, OmniState.init]
  norm_num

/-- C9 (amended): starting from an initialised odometry state with heading 0 and
`odometry_constant * odometry_correction > 0`, if in each of the first `N` cycles the
four encoder differences are a positive multiple of `jac_forward (vx, 0, 0)` for some
`vx > 0`, then the odometry `x` is strictly decreasing from cycle to cycle, while `y`
keeps its starting value and the heading stays 0. -/
theorem omnidrive_odometry_forward_decreases (st : OmniState ℝ) (enc : Nat → omniread_t)
    (N : Nat) (hinit : st.odometry_initialized ≠ 0) (hth : st.odometry 2 = 0)
    (hc : 0 < odometry_constant * st.odometry_correction)
    (hfw : ∀ n, n < N → ∃ vx lam : ℝ, 0 < vx ∧ 0 < lam ∧ ∀ i : Fin 4,
      ((encoder_delta (odometry_after Real.cos Real.sin st enc n).last_odometry_position
          (enc n) i : Int) : ℝ) = lam * jac_forward ![vx, 0, 0] i) :
    ∀ n, n < N →
      (odometry_after Real.cos Real.sin st enc (n + 1)).odometry 0
          < (odometry_after Real.cos Real.sin st enc n).odometry 0
      ∧ (odometry_after Real.cos Real.sin st enc (n + 1)).odometry 1 = st.odometry 1
      ∧ (odometry_after Real.cos Real.sin st enc (n + 1)).odometry 2 = 0 := by
  intro n hn
  obtain ⟨hi, hcorr, _, ht⟩ :=
    odometry_forward_invariant st enc N hinit hth hfw n (Nat.le_of_lt hn)
  obtain ⟨_, _, hy1, ht1⟩ :=
    odometry_forward_invariant st enc N hinit hth hfw (n + 1) hn
  obtain ⟨vx, lam, hvx, hlam, hd⟩ := hfw n hn
  obtain ⟨s0, _⟩ :=
    odometry_forward_step (odometry_after Real.cos Real.sin st enc n) (enc n) hi ht vx lam hd
  refine ⟨?_, hy1, ht1⟩
  show (omnidrive_odometry Real.cos Real.sin (odometry_after Real.cos Real.sin st enc n)
      (enc n)).state.odometry 0 < _
  rw [s0, hcorr]
  have : 0 < lam * vx / (odometry_constant * st.odometry_correction) :=
    div_pos (mul_pos hlam hvx) hc
  linarith

/-- Witness of `omnidrive_odometry_forward_decreases`: two cycles from the
initialised origin with the snapshots `(1, -1, 1, -1)` and `(2, -2, 2, -2)`. -/
theorem omnidrive_odometry_forward_decreases_witness :
    (odometry_after Real.cos Real.sin (initialized_origin : OmniState ℝ)
        (fun k => forward_snapshot (k + 1)) 1).odometry 0
      < (odometry_after Real.cos Real.sin (initialized_origin : OmniState ℝ)
        (fun k => forward_snapshot (k + 1)) 0).odometry 0
    ∧ (odometry_after Real.cos Real.sin (initialized_origin : OmniState ℝ)
        (fun k => forward_snapshot (k + 1)) 2).odometry 0
      < (odometry_after Real.cos Real.sin (initialized_origin : OmniState ℝ)
        (fun k => forward_snapshot (k + 1)) 1).odometry 0
    ∧ (odometry_after Real.cos Real.sin (initialized_origin : OmniState ℝ)
        (fun k => forward_snapshot (k + 1)) 2).odometry 2 = 0 := by
  have hw := wheel_speeds_apply 1 0 0
  simp only [wheel_speeds] at hw
  have e0 : Fin.castSucc (0 : Fin 4) = (0 : Fin 5) := rfl
  have e1 : Fin.castSucc (1 : Fin 4) = (1 : Fin 5) := rfl
  have e2 : Fin.castSucc (2 : Fin 4) = (2 : Fin 5) := rfl
  have e3 : Fin.castSucc (3 : Fin 4) = (3 : Fin 5) := rfl
  have H := omnidrive_odometry_forward_decreases (initialized_origin : OmniState ℝ)
    (fun k => forward_snapshot (k + 1)) 2
    (by simp [initialized_origin])
    (by simp [initialized_origin, OmniState.init])
    (by norm_num [initialized_origin, OmniState.init, odometry_constant])
    (by
      intro n hn
      refine ⟨1, 1, one_pos, one_pos, ?_⟩
      intro i
      rw [hw]
      interval_cases n <;> fin_cases i <;>
        simp [odometry_after, omnidrive_odometry, encoder_delta, initialized_origin,
          OmniState.init, forward_snapshot, wrap_int32, Function.update, e0, e1, e2, e3])
  exact ⟨(H 0 (by norm_num)).1, (H 1 (by norm_num)).1, (H 1 (by norm_num)).2.2⟩

/-- C10: the first call of `omnidrive_odometry` (state not yet initialised, pose at
the origin as set by the initialisers, nonzero `odometry_constant * odometry_correction`)
returns the origin pose `(0, 0, 0)` for every encoder snapshot, records the snapshot
as `last_odometry_position` for every drive, sets `odometry_initialized` to 1 and
leaves the pose where it was. -/
theorem omnidrive_odometry_first_call (st : OmniState ℝ) (cur : omniread_t)
    (hun : st.odometry_initialized = 0) (hpose : st.odometry = ![0, 0, 0])
    (_hc : odometry_constant * st.odometry_correction ≠ 0) :
    (omnidrive_odometry Real.cos Real.sin st cur).x = 0
      ∧ (omnidrive_odometry Real.cos Real.sin st cur).y = 0
      ∧ (omnidrive_odometry Real.cos Real.sin st cur).a = 0
      ∧ (omnidrive_odometry Real.cos Real.sin st cur).state.last_odometry_position
          = cur.position
      ∧ (omnidrive_odometry Real.cos Real.sin st cur).state.odometry_initialized = 1
      ∧ (omnidrive_odometry Real.cos Real.sin st cur).state.odometry = st.odometry := by
  have hz : jac_inverse (fun i : Fin 4 =>
      ((encoder_delta cur.position cur i : Int) : ℝ)
        * (1.0 / (odometry_constant * st.odometry_correction))) = ![0, 0, 0] := by
    apply jac_inverse_forward_pattern <;> simp [encoder_delta, wrap_int32]
  simp only [omnidrive_odometry, hun, decide_True, if_true, hz, hpose, record_positions_self]
  refine ⟨?_, ?_, ?_, trivial, trivial, ?_⟩
  · simp
  · simp
  · simp
  · funext i
    fin_cases i <;> simp

/-- Witness of `omnidrive_odometry_first_call`: the initial state of omnilib.c and
the snapshot `(5, -5, 5, -5, 0)`. -/
theorem omnidrive_odometry_first_call_witness :
    (omnidrive_odometry Real.cos Real.sin (OmniState.init : OmniState ℝ)
        (forward_snapshot 5)).x = 0
      ∧ (omnidrive_odometry Real.cos Real.sin (OmniState.init : OmniState ℝ)
        (forward_snapshot 5)).y = 0
      ∧ (omnidrive_odometry Real.cos Real.sin (OmniState.init : OmniState ℝ)
        (forward_snapshot 5)).a = 0
      ∧ (omnidrive_odometry Real.cos Real.sin (OmniState.init : OmniState ℝ)
        (forward_snapshot 5)).state.last_odometry_position = (forward_snapshot 5).position
      ∧ (omnidrive_odometry Real.cos Real.sin (OmniState.init : OmniState ℝ)
        (forward_snapshot 5)).state.odometry_initialized = 1
      ∧ (omnidrive_odometry Real.cos Real.sin (OmniState.init : OmniState ℝ)
        (forward_snapshot 5)).state.odometry = (OmniState.init : OmniState ℝ).odometry :=
  omnidrive_odometry_first_call OmniState.init (forward_snapshot 5) rfl rfl
    (by norm_num [OmniState.init, odometry_constant])

/-- The twist increment `jac_inverse` computes from four equal wheel increments `q`
is `(0, 0, q / alpha)`. -/
theorem jac_inverse_rotation_pattern (dw : Fin 4 → ℝ) (q : ℝ)
    (h0 : dw 0 = q) (h1 : dw 1 = q) (h2 : dw 2 = q) (h3 : dw 3 = q) :
    jac_inverse dw = ![0, 0, q / alpha] := by
  have ha : (alpha : ℝ) ≠ 0 := by norm_num [alpha]
  funext i
  fin_cases i
  all_goals
    simp only [jac_inverse, J_inv_C, List.foldl_cons, List.foldl_nil, h0, h1, h2, h3,
      Fin.mk_one, Fin.zero_eta, Fin.reduceFinMk, Matrix.cons_val_three,
      Matrix.cons_val_zero, Matrix.cons_val_one, Matrix.head_cons, Matrix.cons_val_two,
      Matrix.tail_cons]
  all_goals field_simp
  all_goals ring

/-- One cycle of `omnidrive_odometry` on an initialised state whose four encoder
differences all equal `k`. -/
theorem odometry_rotation_step (st : OmniState ℝ) (cur : omniread_t)
    (hinit : st.odometry_initialized ≠ 0) (k : Int)
    (hd : ∀ i : Fin 4, encoder_delta st.last_odometry_position cur i = k) :
    (omnidrive_odometry Real.cos Real.sin st cur).state.odometry 0 = st.odometry 0
      ∧ (omnidrive_odometry Real.cos Real.sin st cur).state.odometry 1 = st.odometry 1
      ∧ (omnidrive_odometry Real.cos Real.sin st cur).state.odometry 2
          = st.odometry 2
            - (k : ℝ) / (odometry_constant * st.odometry_correction) / alpha
      ∧ (omnidrive_odometry Real.cos Real.sin st cur).state.odometry_initialized ≠ 0
      ∧ (omnidrive_odometry Real.cos Real.sin st cur).state.odometry_correction
          = st.odometry_correction := by
  have hj : jac_inverse (fun i : Fin 4 =>
      ((encoder_delta st.last_odometry_position cur i : Int) : ℝ)
        * (1.0 / (odometry_constant * st.odometry_correction)))
      = ![0, 0, (k : ℝ) / (odometry_constant * st.odometry_correction) / alpha] := by
    have h10 : (1.0 : ℝ) = 1 := by norm_num
    apply jac_inverse_rotation_pattern
    all_goals simp only [hd, h10]
    all_goals ring
  simp only [omnidrive_odometry, hinit, decide_False, Bool.false_eq_true, if_false, hj]
  refine ⟨?_, ?_, ?_, hinit, trivial⟩
  · simp
  · simp
  · simp; ring

/-- Over rotation-only cycles the state stays initialised and keeps its correction
factor. -/
theorem odometry_rotation_invariant (st : OmniState ℝ) (enc : Nat → omniread_t) (N : Nat)
    (k : Nat → Int) (hinit : st.odometry_initialized ≠ 0)
    (hrot : ∀ n, n < N → ∀ i : Fin 4,
      encoder_delta (odometry_after Real.cos Real.sin st enc n).last_odometry_position
        (enc n) i = k n) :
    ∀ n, n ≤ N →
      (odometry_after Real.cos Real.sin st enc n).odometry_initialized ≠ 0
      ∧ (odometry_after Real.cos Real.sin st enc n).odometry_correction
          = st.odometry_correction := by
  intro n
  induction n with
  | zero => intro _; exact ⟨hinit, rfl⟩
  | succ j ih =>
    intro hj
    obtain ⟨hi, hcorr⟩ := ih (Nat.le_of_succ_le hj)
    obtain ⟨_, _, _, s3, s4⟩ :=
      odometry_rotation_step (odometry_after Real.cos Real.sin st enc j) (enc j) hi (k j)
        (hrot j hj)
    exact ⟨s3, s4.trans hcorr⟩

/-- C11: with `odometry_constant * odometry_correction > 0`, from every initialised
state, a cycle of `omnidrive_odometry` whose four encoder differences all equal the
tick count `k n` leaves `x` and `y` unchanged and subtracts
`k n / (odometry_constant * odometry_correction) / alpha` from the heading, which
is a nonzero change when `k n ≠ 0`; over such cycles the heading strictly decreases
while the counts are positive and strictly increases while they are negative. -/
theorem omnidrive_odometry_rotation_only (st : OmniState ℝ) (enc : Nat → omniread_t)
    (N : Nat) (k : Nat → Int) (hinit : st.odometry_initialized ≠ 0)
    (hc : 0 < odometry_constant * st.odometry_correction)
    (hrot : ∀ n, n < N → ∀ i : Fin 4,
      encoder_delta (odometry_after Real.cos Real.sin st enc n).last_odometry_position
        (enc n) i = k n) :
    ∀ n, n < N →
      (odometry_after Real.cos Real.sin st enc (n + 1)).odometry 0
          = (odometry_after Real.cos Real.sin st enc n).odometry 0
      ∧ (odometry_after Real.cos Real.sin st enc (n + 1)).odometry 1
          = (odometry_after Real.cos Real.sin st enc n).odometry 1
      ∧ (odometry_after Real.cos Real.sin st enc (n + 1)).odometry 2
          = (odometry_after Real.cos Real.sin st enc n).odometry 2
            - (k n : ℝ) / (odometry_constant * st.odometry_correction) / alpha
      ∧ (k n ≠ 0 → (odometry_after Real.cos Real.sin st enc (n + 1)).odometry 2
            ≠ (odometry_after Real.cos Real.sin st enc n).odometry 2)
      ∧ (0 < k n → (odometry_after Real.cos Real.sin st enc (n + 1)).odometry 2
            < (odometry_after Real.cos Real.sin st enc n).odometry 2)
      ∧ (k n < 0 → (odometry_after Real.cos Real.sin st enc n).odometry 2
            < (odometry_after Real.cos Real.sin st enc (n + 1)).odometry 2) := by
  intro n hn
  obtain ⟨hi, hcorr⟩ :=
    odometry_rotation_invariant st enc N k hinit hrot n (Nat.le_of_lt hn)
  obtain ⟨s0, s1, s2, _, _⟩ :=
    odometry_rotation_step (odometry_after Real.cos Real.sin st enc n) (enc n) hi (k n)
      (hrot n hn)
  rw [hcorr] at s2
  have ha : (0 : ℝ) < alpha := by norm_num [alpha]
  have hpos : ∀ z : ℝ, 0 < z → 0 < z / (odometry_constant * st.odometry_correction) / alpha :=
    fun z hz => div_pos (div_pos hz hc) ha
  have hneg : ∀ z : ℝ, z < 0 → z / (odometry_constant * st.odometry_correction) / alpha < 0 :=
    fun z hz => div_neg_of_neg_of_pos (div_neg_of_neg_of_pos hz hc) ha
  have e : (odometry_after Real.cos Real.sin st enc (n + 1))
      = (omnidrive_odometry Real.cos Real.sin (odometry_after Real.cos Real.sin st enc n)
          (enc n)).state := rfl
  rw [e]
  refine ⟨s0, s1, s2, ?_, ?_, ?_⟩
  · intro hk
    rw [s2]
    rcases lt_or_gt_of_ne hk with h | h
    · have := hneg (k n) (by exact_mod_cast h)
      intro hcon
      linarith
    · have := hpos (k n) (by exact_mod_cast h)
      intro hcon
      linarith
  · intro hk
    rw [s2]
    have := hpos (k n) (by exact_mod_cast hk)
    linarith
  · intro hk
    rw [s2]
    have := hneg (k n) (by exact_mod_cast hk)
    linarith

/-- Witness of `omnidrive_odometry_rotation_only`: two cycles from the initialised
origin with the snapshots `(1, 1, 1, 1)` and `(2, 2, 2, 2)`. -/
theorem omnidrive_odometry_rotation_only_witness :
    (odometry_after Real.cos Real.sin (initialized_origin : OmniState ℝ)
        (fun j => rotation_snapshot (j + 1)) 2).odometry 0
      = (odometry_after Real.cos Real.sin (initialized_origin : OmniState ℝ)
        (fun j => rotation_snapshot (j + 1)) 1).odometry 0
    ∧ (odometry_after Real.cos Real.sin (initialized_origin : OmniState ℝ)
        (fun j => rotation_snapshot (j + 1)) 2).odometry 2
      < (odometry_after Real.cos Real.sin (initialized_origin : OmniState ℝ)
        (fun j => rotation_snapshot (j + 1)) 1).odometry 2 := by
  have e0 : Fin.castSucc (0 : Fin 4) = (0 : Fin 5) := rfl
  have e1 : Fin.castSucc (1 : Fin 4) = (1 : Fin 5) := rfl
  have e2 : Fin.castSucc (2 : Fin 4) = (2 : Fin 5) := rfl
  have e3 : Fin.castSucc (3 : Fin 4) = (3 : Fin 5) := rfl
  have H := omnidrive_odometry_rotation_only (initialized_origin : OmniState ℝ)
    (fun j => rotation_snapshot (j + 1)) 2 (fun _ => 1)
    (by simp [initialized_origin])
    (by norm_num [initialized_origin, OmniState.init, odometry_constant])
    (by
      intro n hn i
      interval_cases n <;> fin_cases i <;>
        simp [odometry_after, omnidrive_odometry, encoder_delta, initialized_origin,
          OmniState.init, rotation_snapshot, wrap_int32, Function.update, e0, e1, e2, e3])
  exact ⟨(H 1 (by norm_num)).1, (H 1 (by norm_num)).2.2.2.2.1 (by norm_num)⟩

/-! ## calcOdometry and the sign conventions of omnilib.hpp: theorems -/

/-- C15: for valid parameters, a pure lateral twist `(0, vy, 0)` with `vy > 0` gives
wheel velocities of the common magnitude `drive_constant * vy` with the signs
`(-, +, +, -)`; a pure rotation `(0, 0, omega)` with `omega > 0` gives a wheel vector
with the signs `(-, +, -, +)` whose `omniFK` image has `vx = 0` and `vy = 0`. -/
theorem omniIK_lateral_and_rotation (p : JacParams ℝ) (hlx : 0 < p.lx) (hly : 0 < p.ly)
    (hd : 0 < p.drive_constant) (vy : ℝ) (hvy : 0 < vy) (omega : ℝ) (hom : 0 < omega) :
    ((∀ i : Fin 4, |omniIK p ![0, vy, 0] i| = p.drive_constant * vy)
      ∧ omniIK p ![0, vy, 0] 0 < 0 ∧ 0 < omniIK p ![0, vy, 0] 1
      ∧ 0 < omniIK p ![0, vy, 0] 2 ∧ omniIK p ![0, vy, 0] 3 < 0)
    ∧ (omniIK p ![0, 0, omega] 0 < 0 ∧ 0 < omniIK p ![0, 0, omega] 1
      ∧ omniIK p ![0, 0, omega] 2 < 0 ∧ 0 < omniIK p ![0, 0, omega] 3
      ∧ omniFK p (omniIK p ![0, 0, omega]) 0 = 0
      ∧ omniFK p (omniIK p ![0, 0, omega]) 1 = 0) := by
  have hl : 0 < p.lx + p.ly := by positivity
  have hm : 0 < p.drive_constant * vy := mul_pos hd hvy
  have hb : 0 < p.drive_constant / (p.lx + p.ly) * omega := mul_pos (div_pos hd hl) hom
  have hlat : omniIK p ![0, vy, 0]
      = ![-(p.drive_constant * vy), p.drive_constant * vy, p.drive_constant * vy,
          -(p.drive_constant * vy)] := by
    rw [omniIK_apply]
    funext i
    fin_cases i <;> simp
  have hrot : omniIK p ![0, 0, omega]
      = ![-(p.drive_constant / (p.lx + p.ly) * omega), p.drive_constant / (p.lx + p.ly) * omega,
          -(p.drive_constant / (p.lx + p.ly) * omega),
          p.drive_constant / (p.lx + p.ly) * omega] := by
    rw [omniIK_apply]
    funext i
    fin_cases i <;> simp
  have hfk := omniFK_omniIK_apply p (ne_of_gt hl) (ne_of_gt hd) ![0, 0, omega]
  refine ⟨⟨?_, ?_, ?_, ?_, ?_⟩, ?_, ?_, ?_, ?_, ?_, ?_⟩
  · intro i
    rw [hlat]
    fin_cases i <;> simp [abs_of_pos hm]
  · rw [hlat]; simpa using hm
  · rw [hlat]; simpa using hm
  · rw [hlat]; simpa using hm
  · rw [hlat]; simpa using hm
  · rw [hrot]; simpa using hb
  · rw [hrot]; simpa using hb
  · rw [hrot]; simpa using hb
  · rw [hrot]; simpa using hb
  · rw [hfk]; simp
  · rw [hfk]; simp

/-- Witness of `omniIK_lateral_and_rotation`: the test parameters, `vy = 0.1` and
`omega = 0.1`. -/
theorem omniIK_lateral_and_rotation_witness :
    ((∀ i : Fin 4, |omniIK (testParams : JacParams ℝ) ![0, 0.1, 0] i|
          = (testParams : JacParams ℝ).drive_constant * 0.1)
      ∧ omniIK (testParams : JacParams ℝ) ![0, 0.1, 0] 0 < 0
      ∧ 0 < omniIK (testParams : JacParams ℝ) ![0, 0.1, 0] 1
      ∧ 0 < omniIK (testParams : JacParams ℝ) ![0, 0.1, 0] 2
      ∧ omniIK (testParams : JacParams ℝ) ![0, 0.1, 0] 3 < 0)
    ∧ (omniIK (testParams : JacParams ℝ) ![0, 0, 0.1] 0 < 0
      ∧ 0 < omniIK (testParams : JacParams ℝ) ![0, 0, 0.1] 1
      ∧ omniIK (testParams : JacParams ℝ) ![0, 0, 0.1] 2 < 0
      ∧ 0 < omniIK (testParams : JacParams ℝ) ![0, 0, 0.1] 3
      ∧ omniFK (testParams : JacParams ℝ) (omniIK testParams ![0, 0, 0.1]) 0 = 0
      ∧ omniFK (testParams : JacParams ℝ) (omniIK testParams ![0, 0, 0.1]) 1 = 0) :=
  omniIK_lateral_and_rotation testParams (by norm_num [testParams])
    (by norm_num [testParams]) (by norm_num [testParams]) 0.1 (by norm_num) 0.1 (by norm_num)

/-! ## Bitwise operations on status words: lemmas -/

/-- A mask below 128 only sees the low seven bits of a natural number. -/
theorem nat_land_low7 (n m : Nat) (hm : m < 128) : n &&& m = (n % 128) &&& m := by
  apply Nat.eq_of_testBit_eq
  intro k
  have h128 : (128 : Nat) = 2 ^ 7 := by norm_num
  rw [Nat.testBit_and, Nat.testBit_and, h128, Nat.testBit_mod_two_pow]
  by_cases hk : k < 7
  · simp [hk]
  · have hmk : m.testBit k = false := by
      apply Nat.testBit_lt_two_pow
      calc m < 2 ^ 7 := by omega
        _ ≤ 2 ^ k := Nat.pow_le_pow_right (by norm_num) (by omega)
    simp [hmk]

/-- The bits of a mask below 128 that are clear in `n` are the bits it shares with
the complement of the low seven bits of `n`. -/
theorem nat_ldiff_low7 (n m : Nat) (hm : m < 128) :
    Nat.ldiff m n = (127 - n % 128) &&& m := by
  apply Nat.eq_of_testBit_eq
  intro k
  have hr : n % 128 < 2 ^ 7 := by omega
  have e : 127 - n % 128 = 2 ^ 7 - (n % 128 + 1) := by omega
  have h128 : (128 : Nat) = 2 ^ 7 := by norm_num
  rw [Nat.testBit_ldiff, Nat.testBit_and, e, Nat.testBit_two_pow_sub_succ hr]
  rw [h128, Nat.testBit_mod_two_pow]
  by_cases hk : k < 7
  · simp [hk, Bool.and_comm]
  · have hmk : m.testBit k = false := by
      apply Nat.testBit_lt_two_pow
      calc m < 2 ^ 7 := by omega
        _ ≤ 2 ^ k := Nat.pow_le_pow_right (by norm_num) (by omega)
    simp [hmk]

/-- The bitwise and of an integer with a mask below 128 is that of its residue
modulo 128. -/
theorem int_land_low7 (s : Int) (m : Nat) (hm : m < 128) :
    Int.land s (m : Int) = Int.land (((s % 128).toNat : Nat) : Int) (m : Int) := by
  cases s with
  | ofNat n =>
    have e : (Int.ofNat n % 128).toNat = n % 128 := by
      show ((n : Int) % 128).toNat = n % 128
      omega
    rw [e]
    show ((n &&& m : Nat) : Int) = ((n % 128 &&& m : Nat) : Int)
    rw [← nat_land_low7 n m hm]
  | negSucc n =>
    have e : (Int.negSucc n % 128).toNat = 127 - n % 128 := by
      rw [Int.negSucc_emod n (by norm_num)]
      omega
    rw [e]
    show ((Nat.ldiff m n : Nat) : Int) = (((127 - n % 128) &&& m : Nat) : Int)
    rw [← nat_ldiff_low7 n m hm]

/-- The bitwise and of a natural number with a single bit. -/
theorem nat_land_two_pow (n k : Nat) :
    n &&& 2 ^ k = if n.testBit k then 2 ^ k else 0 := by
  apply Nat.eq_of_testBit_eq
  intro j
  rw [Nat.testBit_and, Nat.testBit_two_pow]
  by_cases hj : k = j
  · subst hj
    cases h : n.testBit k <;> simp [Nat.testBit_two_pow]
  · cases h : n.testBit k <;> simp [Nat.testBit_two_pow, hj]

/-- A single bit with the bits of `n` removed. -/
theorem nat_ldiff_two_pow (n k : Nat) :
    Nat.ldiff (2 ^ k) n = if n.testBit k then 0 else 2 ^ k := by
  apply Nat.eq_of_testBit_eq
  intro j
  rw [Nat.testBit_ldiff, Nat.testBit_two_pow]
  by_cases hj : k = j
  · subst hj
    cases h : n.testBit k <;> simp [Nat.testBit_two_pow]
  · cases h : n.testBit k <;> simp [Nat.testBit_two_pow, hj]

/-- The bitwise and of an integer with a single bit, the bit on the right. -/
theorem int_land_two_pow (s : Int) (k : Nat) :
    Int.land s ((2 ^ k : Nat) : Int) = if s.testBit k then ((2 ^ k : Nat) : Int) else 0 := by
  cases s with
  | ofNat n =>
    show ((n &&& 2 ^ k : Nat) : Int) = if n.testBit k then ((2 ^ k : Nat) : Int) else 0
    rw [nat_land_two_pow]
    split <;> simp
  | negSucc n =>
    show ((Nat.ldiff (2 ^ k) n : Nat) : Int)
      = if (!n.testBit k) then ((2 ^ k : Nat) : Int) else 0
    rw [nat_ldiff_two_pow]
    cases n.testBit k <;> simp

/-- The bitwise and of an integer with a single bit, the bit on the left. -/
theorem int_two_pow_land (s : Int) (k : Nat) :
    Int.land ((2 ^ k : Nat) : Int) s = if s.testBit k then ((2 ^ k : Nat) : Int) else 0 := by
  cases s with
  | ofNat n =>
    show ((2 ^ k &&& n : Nat) : Int) = if n.testBit k then ((2 ^ k : Nat) : Int) else 0
    rw [Nat.and_comm, nat_land_two_pow]
    split <;> simp
  | negSucc n =>
    show ((Nat.ldiff (2 ^ k) n : Nat) : Int)
      = if (!n.testBit k) then ((2 ^ k : Nat) : Int) else 0
    rw [nat_ldiff_two_pow]
    cases n.testBit k <;> simp

/-! ## Drive status: theorems -/

/-- The tests of `drive_status` only see the low seven bits of the raw status. -/
theorem status_matches_low7 (s : Int) (i : Fin 10) :
    status_matches s i = status_matches (((s % 128).toNat : Nat) : Int) i := by
  have h : Int.land s (statusmask i)
      = Int.land (((s % 128).toNat : Nat) : Int) (statusmask i) := by
    fin_cases i
    · exact int_land_low7 s 0x5f (by norm_num)
    · exact int_land_low7 s 0x4f (by norm_num)
    · exact int_land_low7 s 0x6f (by norm_num)
    · exact int_land_low7 s 0x7f (by norm_num)
    · exact int_land_low7 s 0x7f (by norm_num)
    · exact int_land_low7 s 0x00 (by norm_num)
    · exact int_land_low7 s 0x00 (by norm_num)
    · exact int_land_low7 s 0x7f (by norm_num)
    · exact int_land_low7 s 0x4f (by norm_num)
    · exact int_land_low7 s 0x4f (by norm_num)
  unfold status_matches
  rw [h]

/-- The index of the last assignment only depends on the low seven bits. -/
theorem last_match_low7 (s : Int) :
    last_match s = last_match (((s % 128).toNat : Nat) : Int) := by
  unfold last_match
  simp only [status_matches_low7 s]

/-- The character loop of `drive_status` follows the index loop `last_match`. -/
theorem foldl_display (P : Fin 10 → Bool) (c : Char) (l : List (Fin 10)) :
    ∀ o : Option (Fin 10),
      l.foldl (fun d i => if P i then statusdisp i else d)
          (match o with | none => c | some i => statusdisp i)
        = match l.foldl (fun o i => if P i then some i else o) o with
          | none => c
          | some i => statusdisp i := by
  induction l with
  | nil => intro o; rfl
  | cons a t ih =>
    intro o
    simp only [List.foldl_cons]
    by_cases h : P a = true
    · simp only [h, if_true]
      exact ih (some a)
    · simp only [h, Bool.false_eq_true, if_false]
      exact ih o

/-- The character `drive_status` leaves behind a non-null pointer: the display code
of the last matching entry, or the old character when no entry matches. -/
theorem drive_status_eq (status : Fin 5 → Int) (c : Char) (index : Fin 5) :
    drive_status status (some c) index
      = some (match last_match (status index) with
              | none => c
              | some i => statusdisp i) := by
  unfold drive_status last_match
  exact congrArg some
    (foldl_display (fun i => status_matches (status index) i) c _ none)

/-- On the residues modulo 128 the first matching entry is the last one. -/
theorem first_match_is_last_low7 :
    ∀ r : Fin 128, ∀ i : Fin 10, status_matches ((r.val : Nat) : Int) i = true →
      (∀ j : Fin 10, j < i → status_matches ((r.val : Nat) : Int) j = false) →
      last_match ((r.val : Nat) : Int) = some i := by
  decide!

/-- C16 (counterexample): the raw status `0xff` equals `statuscode[5]` (display code
'5', mask `0x00`), yet `drive_status` leaves the character 'X' behind the pointer
unchanged instead of writing '5'. -/
theorem drive_status_code_5_counterexample :
    statuscode 5 = 0xff ∧ statusdisp 5 = '5'
      ∧ drive_status (fun _ => 0xff) (some 'X') 0 = some 'X'
      ∧ drive_status (fun _ => 0xff) (some 'X') 0 ≠ some (statusdisp 5) := by
  decide

/-- C16 (amended): for each of the eight table entries `i` other than the entries
5 and 6 (display codes '0', '1', '2', '3', '4', '7', 'E', 'F'), when the raw status
of the drive equals `statuscode[i]`, `drive_status` writes exactly `statusdisp[i]`;
for the entries 5 and 6 (code `0xff` under mask `0x00`) it leaves the character
unchanged. -/
theorem drive_status_on_table_codes (status : Fin 5 → Int) (index : Fin 5) (c : Char)
    (i : Fin 10) (h : status index = statuscode i) :
    (i ≠ 5 ∧ i ≠ 6 → drive_status status (some c) index = some (statusdisp i))
      ∧ (i = 5 ∨ i = 6 → drive_status status (some c) index = some c) := by
  rw [drive_status_eq, h]
  have hl : ∀ j : Fin 10, last_match (statuscode j)
      = if j = 5 ∨ j = 6 then none else some j := by decide
  rw [hl i]
  constructor
  · rintro ⟨h5, h6⟩
    simp [h5, h6]
  · intro h56
    simp [h56]

/-- Witness of `drive_status_on_table_codes`: drive 2 with the raw status `0x37`,
the code of entry 4. -/
theorem drive_status_on_table_codes_witness :
    drive_status ![0, 0, 0x37, 0, 0] (some 'X') 2 = some '4' :=
  (drive_status_on_table_codes ![0, 0, 0x37, 0, 0] 2 'X' 4 (by decide)).1 (by decide)

/-- When entry `i` is the first (lowest-index) entry that matches the raw status,
`drive_status` writes its display character. -/
theorem drive_status_of_first_match (status : Fin 5 → Int) (index : Fin 5) (c : Char)
    (i : Fin 10) (hi : status_matches (status index) i = true)
    (hmin : ∀ j : Fin 10, j < i → status_matches (status index) j = false) :
    drive_status status (some c) index = some (statusdisp i) := by
  have hr : (status index % 128).toNat < 128 := by omega
  have hlast := first_match_is_last_low7 ⟨(status index % 128).toNat, hr⟩ i
    (by rw [← status_matches_low7]; exact hi)
    (by intro j hj; rw [← status_matches_low7]; exact hmin j hj)
  rw [drive_status_eq, last_match_low7, hlast]

/-- C17: for every raw status for which at least one table entry matches, there is a
first (lowest-index) matching entry `i`, and `drive_status` writes its display
character `statusdisp[i]`, although its loop assigns at every match. -/
theorem drive_status_first_match (status : Fin 5 → Int) (index : Fin 5) (c : Char)
    (hex : ∃ i : Fin 10, status_matches (status index) i = true) :
    ∃ i : Fin 10, status_matches (status index) i = true
      ∧ (∀ j : Fin 10, j < i → status_matches (status index) j = false)
      ∧ drive_status status (some c) index = some (statusdisp i) := by
  have hne : (Finset.univ.filter
      (fun i : Fin 10 => status_matches (status index) i = true)).Nonempty := by
    obtain ⟨i, hi⟩ := hex
    exact ⟨i, by simp [hi]⟩
  have hmem := Finset.min'_mem _ hne
  have hi : status_matches (status index)
      ((Finset.univ.filter
        (fun i : Fin 10 => status_matches (status index) i = true)).min' hne) = true := by
    simpa using hmem
  have hmin : ∀ j : Fin 10,
      j < (Finset.univ.filter
        (fun i : Fin 10 => status_matches (status index) i = true)).min' hne →
      status_matches (status index) j = false := by
    intro j hj
    by_contra hcon
    have hjm : j ∈ Finset.univ.filter
        (fun i : Fin 10 => status_matches (status index) i = true) := by
      simpa using hcon
    exact absurd (Finset.min'_le _ j hjm) (not_le.mpr hj)
  exact ⟨_, hi, hmin, drive_status_of_first_match status index c _ hi hmin⟩

/-- Witness of `drive_status_first_match`: drive 0 with the raw status `0xb3`, which
entry 3 matches. -/
theorem drive_status_first_match_witness :
    ∃ i : Fin 10, status_matches 0xb3 i = true
      ∧ (∀ j : Fin 10, j < i → status_matches 0xb3 j = false)
      ∧ drive_status (fun _ => 0xb3) (some 'X') 0 = some (statusdisp i) :=
  drive_status_first_match (fun _ => 0xb3) 0 'X' ⟨3, by decide⟩

/-- C18: for every five raw status values, the emergency-stop flag that
`omnidrive_status` writes through a non-null `estop` is
`0x80 & (s0 & s1 & s2 & s3 & s4)`; it is `0x80` when bit 7 is set in every one of the
five statuses and `0` otherwise, so it is nonzero exactly when bit 7 is set in all
five. -/
theorem omnidrive_status_estop (status : Fin 5 → Int)
    (drive0 drive1 drive2 drive3 drive4 : Option Char) (e : Int) :
    (omnidrive_status status drive0 drive1 drive2 drive3 drive4 (some e)).estop
        = some (Int.land 0x80
            (Int.land (Int.land (Int.land (Int.land (status 0) (status 1)) (status 2))
              (status 3)) (status 4)))
      ∧ (omnidrive_status status drive0 drive1 drive2 drive3 drive4 (some e)).estop
        = some (if (status 0).testBit 7 = true ∧ (status 1).testBit 7 = true
                    ∧ (status 2).testBit 7 = true ∧ (status 3).testBit 7 = true
                    ∧ (status 4).testBit 7 = true then 0x80 else 0)
      ∧ ((omnidrive_status status drive0 drive1 drive2 drive3 drive4 (some e)).estop
            ≠ some 0
          ↔ (status 0).testBit 7 = true ∧ (status 1).testBit 7 = true
              ∧ (status 2).testBit 7 = true ∧ (status 3).testBit 7 = true
              ∧ (status 4).testBit 7 = true) := by
  have hval : Int.land 0x80
      (Int.land (Int.land (Int.land (Int.land (status 0) (status 1)) (status 2))
        (status 3)) (status 4))
      = if (status 0).testBit 7 = true ∧ (status 1).testBit 7 = true
            ∧ (status 2).testBit 7 = true ∧ (status 3).testBit 7 = true
            ∧ (status 4).testBit 7 = true then 0x80 else 0 := by
    have h := int_two_pow_land
      (Int.land (Int.land (Int.land (Int.land (status 0) (status 1)) (status 2))
        (status 3)) (status 4)) 7
    have h128 : (((2 ^ 7 : Nat) : Nat) : Int) = 0x80 := by norm_num
    rw [h128] at h
    rw [h]
    simp only [Int.testBit_land, Bool.and_eq_true, and_assoc]
  have hest : (omnidrive_status status drive0 drive1 drive2 drive3 drive4 (some e)).estop
      = some (Int.land 0x80
          (Int.land (Int.land (Int.land (Int.land (status 0) (status 1)) (status 2))
            (status 3)) (status 4))) := rfl
  refine ⟨hest, ?_, ?_⟩
  · rw [hest, hval]
  · rw [hest, hval]
    by_cases hall : (status 0).testBit 7 = true ∧ (status 1).testBit 7 = true
        ∧ (status 2).testBit 7 = true ∧ (status 3).testBit 7 = true
        ∧ (status 4).testBit 7 = true
    · simp only [hall, and_self, if_true, iff_true]
      decide
    · simp only [hall, if_false, iff_false, not_not]

/-- C19: `homing_reached` returns 1 exactly when bit 12 of the status word is set and
0 exactly when it is clear; it returns 0 for the word 0 and for the word -4097, whose
bits are all set except bit 12. -/
theorem homing_reached_iff_bit_12 (statusword : Int) :
    (homing_reached statusword = 1 ↔ statusword.testBit 12 = true)
      ∧ (homing_reached statusword = 0 ↔ statusword.testBit 12 = false)
      ∧ homing_reached 0 = 0
      ∧ (∀ k : Nat, Int.testBit (-4097) k = !decide (k = 12))
      ∧ homing_reached (-4097) = 0 := by
  have hshift : ((1 : Int) <<< STATUSWORD_HOMING_ATTAINED_BIT) = ((2 ^ 12 : Nat) : Int) := by
    decide
  have hval : ∀ s : Int, homing_reached s = if s.testBit 12 then 1 else 0 := by
    intro s
    unfold homing_reached
    rw [hshift, int_land_two_pow]
    cases s.testBit 12 <;> simp
  have hbits : ∀ k : Nat, Int.testBit (-4097) k = !decide (k = 12) := by
    intro k
    show (!Nat.testBit (2 ^ 12) k) = !decide (k = 12)
    rw [Nat.testBit_two_pow]
    by_cases hk : k = 12
    · simp [hk]
    · have hk2 : ¬ 12 = k := fun h => hk h.symm
      simp [hk, hk2]
  refine ⟨?_, ?_, ?_, hbits, ?_⟩
  · rw [hval]
    cases statusword.testBit 12 <;> simp
  · rw [hval]
    cases statusword.testBit 12 <;> simp
  · rw [hval]
    decide
  · rw [hval, hbits 12]
    decide

/-! ## Power-on sequence: theorems -/

/-- With the master handle available, a run of `writeSDO` calls appends one download
per call, with subindex 0 and the size of the call's type. -/
theorem writeSDO_run_downloads (ws : List sdo_write) :
    ∀ bus : Bus, bus.master.isSome = true →
      (ws.foldl (fun b w => (writeSDO b w.device w.objectNum w.value w.type).1) bus).downloads
        = bus.downloads ++ ws.map (fun w =>
            { device := w.device, index := w.objectNum, subindex := 0, value := w.value,
              data_size := sdo_data_size w.type }) := by
  induction ws with
  | nil => intro bus _; simp
  | cons w t ih =>
    intro bus hm
    obtain ⟨m, hmm⟩ := Option.isSome_iff_exists.mp hm
    have hstep : (writeSDO bus w.device w.objectNum w.value w.type).1.master.isSome = true := by
      simp [writeSDO, writeSDO_lib, hmm]
    rw [List.foldl_cons, ih _ hstep]
    simp [writeSDO, writeSDO_lib, hmm]

/-- C20: restricted to any single actuator `i` in 0..4, the calls of `writeSDO` that
`omnidrive_poweron` issues are exactly the three control-word writes `0x06`, `0x07`,
`0x0f` to object `0x6040`, in that order; all fifteen calls address an actuator in
0..4; and when the master handle is available the downloads handed to the bus are
these calls, in order, each to subindex 0 with two bytes. -/
theorem omnidrive_poweron_sequence (i : Int) (hi : 0 ≤ i ∧ i ≤ 4) (bus : Bus) :
    omnidrive_poweron_writes.filter (fun w => decide (w.device = i))
        = [ { device := i, objectNum := 0x6040, value := 0x06, type := UINT16 },
            { device := i, objectNum := 0x6040, value := 0x07, type := UINT16 },
            { device := i, objectNum := 0x6040, value := 0x0f, type := UINT16 } ]
      ∧ omnidrive_poweron_writes.length = 15
      ∧ (∀ w ∈ omnidrive_poweron_writes, 0 ≤ w.device ∧ w.device ≤ 4)
      ∧ (bus.master.isSome = true →
          (omnidrive_poweron bus).downloads
            = bus.downloads ++ omnidrive_poweron_writes.map (fun w =>
                { device := w.device, index := w.objectNum, subindex := 0,
                  value := w.value, data_size := 2 })
          ∧ ((omnidrive_poweron bus).downloads.drop bus.downloads.length).filter
                (fun d => decide (d.device = i))
              = [ { device := i, index := 0x6040, subindex := 0, value := 0x06,
                    data_size := 2 },
                  { device := i, index := 0x6040, subindex := 0, value := 0x07,
                    data_size := 2 },
                  { device := i, index := 0x6040, subindex := 0, value := 0x0f,
                    data_size := 2 } ]) := by
  obtain ⟨h0, h4⟩ := hi
  have hfilter : omnidrive_poweron_writes.filter (fun w => decide (w.device = i))
      = [ { device := i, objectNum := 0x6040, value := 0x06, type := UINT16 },
          { device := i, objectNum := 0x6040, value := 0x07, type := UINT16 },
          { device := i, objectNum := 0x6040, value := 0x0f, type := UINT16 } ] := by
    interval_cases i <;> decide
  refine ⟨hfilter, rfl, by decide, ?_⟩
  intro hm
  have hdl : (omnidrive_poweron bus).downloads
      = bus.downloads ++ omnidrive_poweron_writes.map (fun w =>
          { device := w.device, index := w.objectNum, subindex := 0,
            value := w.value, data_size := 2 }) := by
    unfold omnidrive_poweron
    rw [writeSDO_run_downloads _ bus hm]
    rfl
  refine ⟨hdl, ?_⟩
  rw [hdl, List.drop_left]
  interval_cases i <;> decide

/-- Witness of `omnidrive_poweron_sequence`: actuator 2 on the idle bus. -/
theorem omnidrive_poweron_sequence_witness :
    (omnidrive_poweron idle_bus).downloads.filter (fun d => decide (d.device = 2))
      = [ { device := 2, index := 0x6040, subindex := 0, value := 0x06, data_size := 2 },
          { device := 2, index := 0x6040, subindex := 0, value := 0x07, data_size := 2 },
          { device := 2, index := 0x6040, subindex := 0, value := 0x0f, data_size := 2 } ] :=
  ((omnidrive_poweron_sequence 2 (by decide) idle_bus).2.2.2 rfl).2

/-! ## Torso setpoint, service writes, limiter and status frame: theorems -/

/-- One call of `omnidrive_drive`: the torso flag, the torso target and the remembered
position. -/
theorem omnidrive_drive_torso_step (magic : Int) (st : OmniState ℝ) (x y a torso_pos : ℝ) :
    ((omnidrive_drive Real.sqrt magic st x y a torso_pos).tar.send_new_torso_pos = 1
        ↔ torso_pos ≠ st.old_torso_pos)
      ∧ ((omnidrive_drive Real.sqrt magic st x y a torso_pos).tar.send_new_torso_pos = 0
        ↔ torso_pos = st.old_torso_pos)
      ∧ (omnidrive_drive Real.sqrt magic st x y a torso_pos).tar.target_position
          TORSO_DRIVE_SEQ = torso_pos
      ∧ (omnidrive_drive Real.sqrt magic st x y a torso_pos).state.old_torso_pos
          = torso_pos := by
  by_cases h : st.old_torso_pos = torso_pos
  · simp [omnidrive_drive, h]
  · have h2 : ¬ torso_pos = st.old_torso_pos := fun e => h e.symm
    simp [omnidrive_drive, h, h2]

/-- C21: in every sequence of `omnidrive_drive` calls, `send_new_torso_pos` of call
`n` is 1 exactly when the requested `torso_pos` differs from the one of the previous
call (from `old_torso_pos` of the start state for the first call, which is 0.0 in
the initial state) and 0 exactly when it is equal; in both cases the torso
`target_position` is the requested `torso_pos`, and `old_torso_pos` becomes
`torso_pos`. -/
theorem omnidrive_drive_torso_flag (magic : Int) (st : OmniState ℝ)
    (x y a torso_pos : Nat → ℝ) (n : Nat) :
    ((omnidrive_drive Real.sqrt magic (drive_after Real.sqrt magic st x y a torso_pos n)
          (x n) (y n) (a n) (torso_pos n)).tar.send_new_torso_pos = 1
        ↔ torso_pos n ≠ (if n = 0 then st.old_torso_pos else torso_pos (n - 1)))
      ∧ ((omnidrive_drive Real.sqrt magic (drive_after Real.sqrt magic st x y a torso_pos n)
          (x n) (y n) (a n) (torso_pos n)).tar.send_new_torso_pos = 0
        ↔ torso_pos n = (if n = 0 then st.old_torso_pos else torso_pos (n - 1)))
      ∧ (omnidrive_drive Real.sqrt magic (drive_after Real.sqrt magic st x y a torso_pos n)
          (x n) (y n) (a n) (torso_pos n)).tar.target_position TORSO_DRIVE_SEQ = torso_pos n
      ∧ (drive_after Real.sqrt magic st x y a torso_pos (n + 1)).old_torso_pos = torso_pos n
      ∧ (OmniState.init : OmniState ℝ).old_torso_pos = 0 := by
  have hprev : (drive_after Real.sqrt magic st x y a torso_pos n).old_torso_pos
      = (if n = 0 then st.old_torso_pos else torso_pos (n - 1)) := by
    cases n with
    | zero => rfl
    | succ k =>
      simp only [Nat.succ_ne_zero, if_false, Nat.add_sub_cancel]
      exact (omnidrive_drive_torso_step magic _ (x k) (y k) (a k) (torso_pos k)).2.2.2
  obtain ⟨h1, h0, ht, ho⟩ := omnidrive_drive_torso_step magic
    (drive_after Real.sqrt magic st x y a torso_pos n) (x n) (y n) (a n) (torso_pos n)
  rw [hprev] at h1 h0
  refine ⟨h1, h0, ht, ho, ?_⟩
  norm_num [OmniState.init]

/-- C22: with a NULL master handle, `writeSDO_lib` and `writeSDO` issue no download and
return -1; with the handle available they issue exactly one download, of 1, 2 or 4
bytes for the 8-, 16- and 32-bit types, and return the return code of
`ecrt_master_sdo_download` for that download. -/
theorem writeSDO_lib_result (bus : Bus) (device index subindex value type : Int) :
    (bus.master = none →
        writeSDO_lib bus device index subindex value type = (bus, -1)
        ∧ writeSDO bus device index value type = (bus, -1))
      ∧ (bus.master.isSome = true →
          (writeSDO_lib bus device index subindex value type).1.downloads
              = bus.downloads ++ [{ device := device, index := index, subindex := subindex,
                                    value := value, data_size := sdo_data_size type }]
          ∧ (writeSDO_lib bus device index subindex value type).2
              = bus.ecrt_master_sdo_download
                  { device := device, index := index, subindex := subindex,
                    value := value, data_size := sdo_data_size type }
          ∧ (writeSDO bus device index value type).1.downloads
              = bus.downloads ++ [{ device := device, index := index, subindex := 0,
                                    value := value, data_size := sdo_data_size type }]
          ∧ (writeSDO bus device index value type).2
              = bus.ecrt_master_sdo_download
                  { device := device, index := index, subindex := 0,
                    value := value, data_size := sdo_data_size type })
      ∧ (type = INT8 ∨ type = UINT8 → sdo_data_size type = 1)
      ∧ (type = INT16 ∨ type = UINT16 → sdo_data_size type = 2)
      ∧ (type = INT32 ∨ type = UINT32 → sdo_data_size type = 4) := by
  refine ⟨?_, ?_, ?_, ?_, ?_⟩
  · intro h
    simp [writeSDO, writeSDO_lib, h]
  · intro h
    obtain ⟨m, hm⟩ := Option.isSome_iff_exists.mp h
    simp [writeSDO, writeSDO_lib, hm]
  · rintro (h | h) <;> simp [sdo_data_size, h, INT8, UINT8]
  · rintro (h | h) <;> simp [sdo_data_size, h, INT8, UINT8, INT16, UINT16]
  · rintro (h | h) <;> simp [sdo_data_size, h, INT8, UINT8, INT16, UINT16, INT32, UINT32]

/-- Witness of `writeSDO_lib_result`: a 16-bit write on the idle bus, whose master
handle is available. -/
theorem writeSDO_lib_result_witness :
    (writeSDO_lib idle_bus 4 0x6040 0 0x0f UINT16).1.downloads
        = idle_bus.downloads ++ [{ device := 4, index := 0x6040, subindex := 0,
                                   value := 0x0f, data_size := sdo_data_size UINT16 }]
      ∧ sdo_data_size UINT16 = 2 :=
  ⟨((writeSDO_lib_result idle_bus 4 0x6040 0 0x0f UINT16).2.1 rfl).1,
   (writeSDO_lib_result idle_bus 4 0x6040 0 0x0f UINT16).2.2.2.1 (Or.inr rfl)⟩

/-- C24: `drive_status` leaves the character behind the pointer unchanged whenever no
table entry matches the raw status, which happens for the status `0x01`; it does
nothing for a null pointer; and the character it leaves is the old one or one of the
display codes of the table. -/
theorem drive_status_frame (status : Fin 5 → Int) (index : Fin 5) (c : Char) :
    ((∀ i : Fin 10, status_matches (status index) i = false) →
        drive_status status (some c) index = some c)
      ∧ (∀ i : Fin 10, status_matches 0x01 i = false)
      ∧ drive_status status none index = none
      ∧ (drive_status status (some c) index = some c
          ∨ ∃ i : Fin 10, status_matches (status index) i = true
              ∧ drive_status status (some c) index = some (statusdisp i)) := by
  refine ⟨?_, by decide, rfl, ?_⟩
  · intro hno
    simp [drive_status, hno]
  · rw [drive_status_eq]
    cases hl : last_match (status index) with
    | none => exact Or.inl rfl
    | some i =>
      right
      refine ⟨i, ?_, rfl⟩
      have hr : (status index % 128).toNat < 128 := by omega
      have key : ∀ r : Fin 128, ∀ j : Fin 10,
          last_match ((r.val : Nat) : Int) = some j →
          status_matches ((r.val : Nat) : Int) j = true := by decide!
      rw [last_match_low7] at hl
      rw [status_matches_low7]
      exact key ⟨(status index % 128).toNat, hr⟩ i hl

/-- Witness of `drive_status_frame`: drive 1 with the raw status `0x01`, which no
entry matches. -/
theorem drive_status_frame_witness :
    drive_status ![0, 0x01, 0, 0, 0] (some 'X') 1 = some 'X' :=
  (drive_status_frame ![0, 0x01, 0, 0, 0] 1 'X').1 (by decide)

end omni_ethercat

/-! ## KMS40Driver::start: theorems -/

namespace iai_kms_40_driver

/-- C25: `KMS40Driver::start` returns false on every path: when the stream-start
request is not acknowledged (no thread is created), when it is acknowledged and
`pthread_create` fails (no thread is created), and also when it is acknowledged and
the thread is created successfully. -/
theorem start_returns_false (d : KMS40Driver) (reply : String) (pthread_create_ret : Int) :
    (d.start reply pthread_create_ret).2 = false
      ∧ (reply ≠ "L1\n" →
          (d.start reply pthread_create_ret).1.thread_created = d.thread_created
          ∧ (d.start reply pthread_create_ret).2 = false)
      ∧ (reply = "L1\n" → pthread_create_ret ≠ 0 →
          (d.start reply pthread_create_ret).1.thread_created = d.thread_created
          ∧ (d.start reply pthread_create_ret).2 = false)
      ∧ (reply = "L1\n" → pthread_create_ret = 0 →
          (d.start reply pthread_create_ret).1.thread_created = true
          ∧ (d.start reply pthread_create_ret).1.exit_requested_ = false
          ∧ (d.start reply pthread_create_ret).2 = false) := by
  refine ⟨?_, ?_, ?_, ?_⟩
  · by_cases h : reply = "L1\n"
    · by_cases hr : pthread_create_ret = 0
      · simp [KMS40Driver.start, KMS40Driver.requestStreamStart, h, hr]
      · simp [KMS40Driver.start, KMS40Driver.requestStreamStart, h, hr]
    · simp [KMS40Driver.start, KMS40Driver.requestStreamStart, h]
  · intro h
    simp [KMS40Driver.start, KMS40Driver.requestStreamStart, h]
  · intro h hr
    simp [KMS40Driver.start, KMS40Driver.requestStreamStart, h, hr]
  · intro h hr
    simp [KMS40Driver.start, KMS40Driver.requestStreamStart, h, hr]

/-- Witness of `start_returns_false`: a fresh driver, the acknowledgement "L1\n" and
a successful `pthread_create`. -/
theorem start_returns_false_witness :
    (KMS40Driver.new.start "L1\n" 0).1.thread_created = true
      ∧ (KMS40Driver.new.start "L1\n" 0).1.exit_requested_ = false
      ∧ (KMS40Driver.new.start "L1\n" 0).2 = false :=
  (start_returns_false KMS40Driver.new "L1\n" 0).2.2.2 rfl rfl

end iai_kms_40_driver
